import Mathlib

/-!
Shallow embedding of the node-nats client (src/lib/nats.js) together with
proofs about the specification claims for that code.

Modelling conventions:
* machine integers are `Nat`/`Int`; byte buffers are `List Nat`;
  JS strings are Lean `String`.
* JS objects mutated in place become functional record updates.
* user callbacks and emitted events are recorded in ghost log fields
  (`calls`, `events`), socket writes in `written`; the instrumentation
  counters `pingsSent`/`pongsProcessed` count PING commands enqueued and
  pong-queue entries popped.
* timers (`setTimeout`/`setImmediate`) are modelled by explicit actions:
  a scheduled timer is a `Bool`/flag, and its firing is a separate step.
-/

namespace NatsModel

/-- The constant CR_LF (nats.js line 64). -/
def crlf : String := "\r\n"

/-- The constant PING_REQUEST, literally PING followed by CR_LF (line 75). -/
def pingStr : String := "PING" ++ crlf

/-- The constant FLUSH_THRESHOLD = 65536 (line 121). -/
def FLUSH_THRESHOLD : Nat := 65536

/-- The error code BAD_SUBJECT (line 87). -/
def BAD_SUBJECT : String := "BAD_SUBJECT"

/-- The error code CONN_CLOSED (line 91). -/
def CONN_CLOSED : String := "CONN_CLOSED"

/-- The lower-case text PERMISSIONS_ERR = "permissions violation" (line 100). -/
def permissionsErr : String := "permissions violation"

/-- The lower-case text STALE_CONNECTION_ERR = "stale connection" (line 105). -/
def staleConnectionErr : String := "stale connection"

/-- A chunk of the outbound pending queue: JS code pushes either a string
command or a raw `Buffer` (binary PUB built at lines 1420-1424). -/
inductive Chunk where
  | str (s : String)
  | buf (bs : List Nat)
deriving DecidableEq

/-- Byte length of a pending chunk, as computed at line 773:
`Buffer.isBuffer(cmd) ? cmd.length : Buffer.byteLength(cmd)` (UTF-8). -/
def chunkLen : Chunk → Nat
  | Chunk.str s => s.utf8ByteSize
  | Chunk.buf bs => bs.length

/-- Whether a chunk is a JS string (not a Buffer). -/
def isStrChunk : Chunk → Bool
  | Chunk.str _ => true
  | Chunk.buf _ => false

/-- The test at line 782: `cmd.length > 3 && cmd[0] === 'P' && cmd[1] === 'U'
&& cmd[2] === 'B'`.  On a string, indexing yields one-character strings, so
the strict comparisons can succeed; on a Buffer, indexing yields a number,
and in JS a number is never strictly equal (===) to a string, so the test is
always false for Buffer chunks. -/
def isPubCmd : Chunk → Bool
  | Chunk.str s =>
      decide (3 < s.length) && (s.data.get? 0 == some 'P')
        && (s.data.get? 1 == some 'U') && (s.data.get? 2 == some 'B')
  | Chunk.buf _ => false

/-- Substring containment over character lists, the model of the JS test
`hay.indexOf(needle) !== -1`. -/
def containsSeq (needle : List Char) : List Char → Bool
  | [] => needle.isEmpty
  | c :: rest => needle.isPrefixOf (c :: rest) || containsSeq needle rest

/-- String form of `containsSeq`. -/
def containsSubstr (hay needle : String) : Bool :=
  containsSeq needle.data hay.data

/-- The model of JS `String.prototype.toLowerCase` (character-wise; the
constants compared against are ASCII). -/
def jsToLower (s : String) : String :=
  String.mk (s.data.map Char.toLower)

/-- Events the client emits to the host application (the `emit` calls). -/
inductive EmittedEvent where
  | subscribeEv (sid : Int) (subject : String)
  | unsubscribeEv (sid : Int) (subject : String)
  | permissionErrorEv (text : String)
  | errorEv (text : String)
  | pingtimerEv
  | pingcountEv (pout : Nat)
deriving DecidableEq

/-- Invocations of user-supplied callbacks. -/
inductive CallbackCall where
  | msgDelivery (sid : Int) (msg : String)
  | errCall (code : String)
  | pongCb (tag : Nat)
deriving DecidableEq

/-- A subscription record, as stored in `this.subs[sid]` (lines 1458-1462,
plus the `qgroup`, `max`, `timeout`, `expected` properties attached later).
`callbackSet` records whether `callback` is non-null; `timeoutActive`
whether a `timeout` timer handle is set. -/
structure Sub where
  subject : String
  callbackSet : Bool
  received : Nat
  qgroup : Option String
  max : Option Nat
  timeoutActive : Bool
  expected : Option Nat
deriving DecidableEq

/-- A mux request configuration, as stored in `respmux.requestMap[token]`
(lines 1745-1751).  `timerActive` records whether `conf.timeout` holds a
live timer. -/
structure MuxConf where
  token : String
  callbackSet : Bool
  inbox : String
  id : Int
  received : Nat
  expected : Option Nat
  timerActive : Bool
deriving DecidableEq

/-- The respmux record created by `createResponseMux` (lines 1725-1730). -/
structure RespMux where
  inbox : String
  inboxPrefixLen : Nat
  subscriptionID : Int
  requestMap : List MuxConf
  nextID : Int
deriving DecidableEq

/-- The client state.  Nullable JS fields are `Option`; `stream`,
`pingTimer` and `inbound` only record presence (their content is outside
the claims).  `maxPingOut` is the only connection option the modelled
operations read.  Fields `reconnects`, `wasConnected`, `reconnecting`,
`currentServer` and the options record are not referenced by any claim and
are omitted. -/
structure ClientState where
  closed : Bool
  connected : Bool
  infoReceived : Bool
  stream : Bool
  pingTimer : Bool
  inbound : Bool
  pstate : Int
  ssid : Int
  subs : Option (List (Int × Sub))
  pending : Option (List Chunk)
  pSize : Nat
  pBufs : Bool
  pongs : Option (List (Option Nat))
  pout : Nat
  maxPingOut : Nat
  respmux : Option RespMux
  nuidCount : Nat
  written : List Chunk
  events : List EmittedEvent
  calls : List CallbackCall
  pingsSent : Nat
  pongsProcessed : Nat
deriving DecidableEq

/-- Client.prototype.closeStream (lines 858-871): destroy the stream if
present; if connected or closed, null pongs/pending and reset counters;
always drop the inbound buffer. -/
def closeStream (st : ClientState) : ClientState :=
  let st1 := if st.stream then { st with stream := false } else st
  let st2 :=
    if st1.connected ∨ st1.closed then
      { st1 with pongs := none, pout := 0, pending := none, pSize := 0, connected := false }
    else st1
  { st2 with inbound := false }

/-- Client.prototype.close (lines 837-851): cancel the ping timer, mark
closed, remove listeners (listeners are not modelled), close the stream and
null out parser/subscription/outbound state. -/
def close (st : ClientState) : ClientState :=
  let st1 := if st.pingTimer then { st with pingTimer := false } else st
  let st2 := { st1 with closed := true }
  let st3 := closeStream st2
  { st3 with ssid := -1, subs := none, pstate := -1, pongs := none,
             pending := none, pSize := 0 }

/-- The lookup `this.subs[sid]`. -/
def lookupSub (st : ClientState) (sid : Int) : Option Sub :=
  ((st.subs.getD []).find? (fun p => p.1 == sid)).map (fun p => p.2)

/-- The property write `this.subs[sid] = sub` (replace an existing binding,
otherwise add one). -/
def setSub (st : ClientState) (sid : Int) (sub : Sub) : ClientState :=
  { st with subs := st.subs.map (fun l =>
      if l.any (fun p => p.1 == sid) then
        l.map (fun p => if p.1 == sid then (sid, sub) else p)
      else l ++ [(sid, sub)]) }

/-- The property delete `delete this.subs[sid]`. -/
def removeSub (st : ClientState) (sid : Int) : ClientState :=
  { st with subs := st.subs.map (fun l => l.filter (fun p => p.1 != sid)) }

/-- Client.prototype.flushPending (lines 878-919): bail out unless
connected, non-empty and the INFO handshake completed; otherwise write the
queued chunks (one joined string, one concatenated buffer, or one by one -
in every case the chunks reach the wire in queue order) and clear the
queue. -/
def flushPending (st : ClientState) : ClientState :=
  if st.connected = false ∨ st.pending = none ∨ st.pending.getD [] = []
      ∨ st.infoReceived = false then st
  else
    { st with pending := some [], pSize := 0,
              written := st.written ++ st.pending.getD [] }

/-- Client.prototype.sendCommand (lines 944-972): drop the command if the
client is closed or pending is null; otherwise push it, grow pSize by its
byte length, record Buffer chunks in pBufs, and, when connected, either
schedule an asynchronous flush (first chunk; the `setImmediate` firing is a
separate step, so no further state change here) or flush synchronously when
pSize exceeds FLUSH_THRESHOLD.  The ghost counter `pingsSent` counts
enqueued PING_REQUEST commands. -/
def sendCommand (st : ClientState) (cmd : Chunk) : ClientState :=
  if st.closed ∨ st.pending = none then st
  else
    let pending := st.pending.getD [] ++ [cmd]
    let st1 : ClientState :=
      { st with
        pending := some pending
        pSize := st.pSize + chunkLen cmd
        pBufs := st.pBufs || !isStrChunk cmd
        pingsSent := st.pingsSent + (if cmd = Chunk.str pingStr then 1 else 0) }
    if st1.connected then
      if pending.length = 1 then st1
      else if FLUSH_THRESHOLD < st1.pSize then flushPending st1
      else st1
    else st1

/-- Client.prototype.flush (lines 1336-1350): on a closed client deliver a
CONN_CLOSED error to the callback (or throw when there is none - no state
change either way); otherwise, if the pong queue exists, push the callback
slot, send PING and flush. -/
def flush (st : ClientState) (cb : Option Nat) : ClientState :=
  if st.closed then
    match cb with
    | some _ => { st with calls := st.calls ++ [CallbackCall.errCall CONN_CLOSED] }
    | none => st
  else
    match st.pongs with
    | none => st
    | some l =>
      let st1 := { st with pongs := some (l ++ [cb]) }
      let st2 := sendCommand st1 (Chunk.str pingStr)
      flushPending st2

/-- The PONG branch of processInbound (lines 1048-1053): reset pout, shift
the front of the pong queue and invoke it if non-null. -/
def recvPong (st : ClientState) : ClientState :=
  let st1 := { st with pout := 0 }
  match st1.pongs with
  | none => st1
  | some [] => st1
  | some (c :: rest) =>
    let st2 := { st1 with pongs := some rest,
                          pongsProcessed := st1.pongsProcessed + 1 }
    match c with
    | some tag => { st2 with calls := st2.calls ++ [CallbackCall.pongCb tag] }
    | none => st2

/-- Client.prototype.processErr (lines 1300-1313): lower-case the text (empty
for a falsy argument); "stale connection" closes the stream silently,
"permissions violation" emits permission_error and keeps the stream, any
other text emits error and closes the stream. -/
def processErr (st : ClientState) (s : Option String) : ClientState :=
  let m := match s with
    | none => ""
    | some text => jsToLower text
  if containsSubstr m staleConnectionErr then closeStream st
  else if containsSubstr m permissionsErr then
    { st with events := st.events ++ [EmittedEvent.permissionErrorEv (s.getD "")] }
  else
    closeStream { st with events := st.events ++ [EmittedEvent.errorEv (s.getD "")] }

/-- The ping-timer body scheduled by Client.prototype.scheduleHeartbeat
(lines 594-622): emit pingtimer; stop when closed; if the stream is up,
emit pingcount and bump pout; past maxPingOut synthesise a stale-connection
error, otherwise send PING and push an undefined pong slot.  The
rescheduling of the timer itself carries no state. -/
def heartbeatFire (st : ClientState) : ClientState :=
  let st0 := { st with events := st.events ++ [EmittedEvent.pingtimerEv] }
  if st0.closed then st0
  else if st0.stream then
    let st1 := { st0 with events := st0.events ++ [EmittedEvent.pingcountEv st0.pout],
                           pout := st0.pout + 1 }
    if st1.maxPingOut < st1.pout then processErr st1 (some staleConnectionErr)
    else
      let st2 := sendCommand st1 (Chunk.str pingStr)
      match st2.pongs with
      | some l => { st2 with pongs := some (l ++ [none]) }
      | none => st2
  else st0

/-- JS truthiness of an optional numeric argument (`undefined` and `0` are
falsy). -/
def jsTruthyNat : Option Nat → Bool
  | none => false
  | some n => n != 0

/-- The requestMap scan of getMuxRequestConfig for a numeric token
(lines 1766-1781): find the entry whose `id` equals the number. -/
def findMuxById (rm : RespMux) (id : Int) : Option MuxConf :=
  rm.requestMap.find? (fun c => c.id == id)

/-- Client.prototype.cancelMuxRequest reached through a numeric sid
(lines 1790-1800): clear the timer of the resolved configuration and delete
it from the request map (by its string token).  It never unsubscribes the
shared wildcard subscription. -/
def cancelMuxById (st : ClientState) (id : Int) : ClientState :=
  match st.respmux with
  | none => st
  | some rm =>
    match findMuxById rm id with
    | none => st
    | some conf =>
      let rm1 := { rm with requestMap := rm.requestMap.filter (fun c => c.token != conf.token) }
      { st with respmux := some rm1 }

/-- Client.prototype.unsubscribe (lines 1490-1525): return on a falsy sid
(modelled by 0) or a closed client; a negative sid cancels the mux request;
otherwise send UNSUB (with the limit when truthy), store `max` on the sub,
and when no limit was given or `received >= max`, clear any timeout, delete
the sub and emit `unsubscribe`. -/
def unsubscribe (st : ClientState) (sid : Int) (optMax : Option Nat) : ClientState :=
  if sid = 0 ∨ st.closed = true then st
  else if sid < 0 then cancelMuxById st sid
  else
    let proto : Chunk :=
      if jsTruthyNat optMax then
        Chunk.str ("UNSUB " ++ toString sid ++ " " ++ toString (optMax.getD 0) ++ crlf)
      else Chunk.str ("UNSUB " ++ toString sid ++ crlf)
    let st1 := sendCommand st proto
    match lookupSub st1 sid with
    | none => st1
    | some sub =>
      let sub1 := { sub with max := optMax }
      if optMax = none ∨ optMax.getD 0 ≤ sub1.received then
        let sub2 := { sub1 with timeoutActive := false }
        let st2 := removeSub st1 sid
        { st2 with events := st2.events ++ [EmittedEvent.unsubscribeEv sid sub2.subject] }
      else setSub st1 sid sub1

/-- Client.prototype.processMsg (lines 1250-1293) for a delivered payload
with subscription id `sid` and message body `msg`: drop silently if the sid
is unknown; bump `received`; cancel a satisfied timeout; on `received ===
max` delete the sub and emit `unsubscribe` (the local callback reference is
still invoked); on `received > max` issue unsubscribe and null the
callback; finally invoke the callback if still set.  (json-mode decoding
and the try/catch around the user callback are outside the claims and not
modelled; options.json is false.) -/
def processMsg (st : ClientState) (sid : Int) (msg : String) : ClientState :=
  match lookupSub st sid with
  | none => st
  | some sub0 =>
    let subA := { sub0 with received := sub0.received + 1 }
    let subB :=
      if subA.timeoutActive && (match subA.expected with
          | some ex => decide (ex ≤ subA.received)
          | none => false) then
        { subA with timeoutActive := false }
      else subA
    let stA := setSub st sid subB
    let res : ClientState × Bool :=
      match subB.max with
      | some m =>
        if subB.received = m then
          let stB := removeSub stA sid
          ({ stB with events := stB.events ++ [EmittedEvent.unsubscribeEv sid subB.subject] },
           subB.callbackSet)
        else if m < subB.received then
          (unsubscribe stA sid none, false)
        else (stA, subB.callbackSet)
      | none => (stA, subB.callbackSet)
    if res.2 then
      { res.1 with calls := res.1.calls ++ [CallbackCall.msgDelivery sid msg] }
    else res.1

/-- Client.prototype.subscribe (lines 1444-1479): throw CONN_CLOSED on a
closed client (modelled as `none`); bump ssid, store the sub (with the
queue group when given), send SUB, emit `subscribe`, and when a truthy max
was passed immediately issue `unsubscribe(ssid, max)`.  Returns the new
ssid. -/
def subscribe (st : ClientState) (subject : String) (qgroup : Option String)
    (max : Option Nat) (cb : Bool) : Option (ClientState × Int) :=
  if st.closed then none
  else
    let ssid := st.ssid + 1
    let sub : Sub :=
      { subject := subject, callbackSet := cb, received := 0, qgroup := qgroup,
        max := none, timeoutActive := false, expected := none }
    let st1 := setSub { st with ssid := ssid } ssid sub
    let proto : String :=
      match qgroup with
      | some q => "SUB " ++ subject ++ " " ++ q ++ " " ++ toString ssid ++ crlf
      | none => "SUB " ++ subject ++ " " ++ toString ssid ++ crlf
    let st2 := sendCommand st1 (Chunk.str proto)
    let st3 := { st2 with events := st2.events ++ [EmittedEvent.subscribeEv ssid subject] }
    let st4 := if jsTruthyNat max then unsubscribe st3 ssid max else st3
    some (st4, ssid)

/-- The JS string coercion used at lines 1403-1405: `'PUB ' + subject`
turns an undefined subject into the literal text "undefined". -/
def jsSubjStr : Option String → String
  | none => "undefined"
  | some s => s

/-- JS falsiness of the subject argument: undefined or the empty string. -/
def subjFalsy : Option String → Bool
  | none => true
  | some s => s == ""

/-- Client.prototype.publish (lines 1361-1432) for a string message in
non-json mode: default the message to EMPTY; on a falsy subject deliver a
BAD_SUBJECT error to the callback (throw without one, modelled as `none`)
and fall through; build `PUB <subject> [<reply>] <size>\r\n<payload>\r\n`
and enqueue it; with a callback, flush; without one, throw CONN_CLOSED when
closed.  (The argument-shuffling for function-typed parameters is resolved
by the typed signature.) -/
def publish (st : ClientState) (subject : Option String) (msg : Option String)
    (reply : Option String) (cb : Option Nat) : Option ClientState :=
  let msgStr := msg.getD ""
  if subjFalsy subject ∧ cb = none then none
  else
    let st1 :=
      if subjFalsy subject then
        { st with calls := st.calls ++ [CallbackCall.errCall BAD_SUBJECT] }
      else st
    let psub : String :=
      match reply with
      | none => "PUB " ++ jsSubjStr subject ++ " "
      | some r => "PUB " ++ jsSubjStr subject ++ " " ++ r ++ " "
    let st2 := sendCommand st1
      (Chunk.str (psub ++ toString msgStr.utf8ByteSize ++ crlf ++ msgStr ++ crlf))
    match cb with
    | some tag => some (flush st2 (some tag))
    | none => if st2.closed then none else some st2

/-- The nuid.next() generator: modelled by a counter (the claims depend
only on freshness of the produced tokens). -/
def nuidNext (st : ClientState) : ClientState × String :=
  ({ st with nuidCount := st.nuidCount + 1 }, "nuid" ++ toString st.nuidCount)

/-- createInbox (lines 169-171): an inbox subject from a fresh nuid. -/
def newInbox (st : ClientState) : ClientState × String :=
  let (st1, n) := nuidNext st
  (st1, "_INBOX." ++ n)

/-- Client.prototype.createResponseMux (lines 1704-1733): idempotently
create the wildcard inbox subscription and the respmux record with
`nextID := -1` and an empty request map; return the root inbox. -/
def createResponseMux (st : ClientState) : ClientState × String :=
  match st.respmux with
  | some rm => (st, rm.inbox)
  | none =>
    let (st1, inbox) := newInbox st
    let ginbox := inbox ++ ".*"
    match subscribe st1 ginbox none none true with
    | none => (st1, inbox)
    | some (st2, sid) =>
      let rm : RespMux :=
        { inbox := inbox, inboxPrefixLen := inbox.length + 1,
          subscriptionID := sid, requestMap := [], nextID := -1 }
      ({ st2 with respmux := some rm }, inbox)

/-- Client.prototype.initMuxRequestDetails (lines 1740-1758): create the
response mux, allocate a token and reply inbox, store a configuration with
`id := nextID--`, `received := 0` and `expected` only when the argument is
a positive number, and register it in the request map. -/
def initMuxRequestDetails (st : ClientState) (cb : Bool) (expected : Option Nat) :
    Option (ClientState × MuxConf) :=
  let p1 := createResponseMux st
  let p2 := nuidNext p1.1
  let inbox := p1.2 ++ "." ++ p2.2
  match p2.1.respmux with
  | none => none
  | some rm =>
    let conf : MuxConf :=
      { token := p2.2, callbackSet := cb, inbox := inbox, id := rm.nextID,
        received := 0,
        expected := (match expected with
          | some e => if 0 < e then some e else none
          | none => none),
        timerActive := false }
    let rm1 := { rm with nextID := rm.nextID - 1, requestMap := rm.requestMap ++ [conf] }
    some ({ p2.1 with respmux := some rm1 }, conf)

/-- Client.prototype.request (lines 1590-1619) in new (mux) style: build
the mux request details, publish the message with the per-request inbox as
reply, and when a timeout option is present arm the request timer.
Returns the (negative) mux id. -/
def request (st : ClientState) (subject : String) (msg : String)
    (optMax : Option Nat) (optTimeout : Bool) (cb : Bool) :
    Option (ClientState × Int) :=
  match initMuxRequestDetails st cb optMax with
  | none => none
  | some (st1, conf) =>
    match publish st1 (some subject) (some msg) (some conf.inbox) none with
    | none => none
    | some st2 =>
      let st3 :=
        if optTimeout then
          match st2.respmux with
          | some rm =>
            let rm1 := { rm with requestMap := rm.requestMap.map (fun c =>
                if c.token == conf.token then { c with timerActive := true } else c) }
            { st2 with respmux := some rm1 }
          | none => st2
        else st2
      some (st3, conf.id)

/-- A freshly constructed client: the fields set by Client.prototype
initState (lines 820-830: ssid = 1, empty subs, not connected, empty
pending, pout = 0) together with the createConnection effects (lines
788-792: empty pongs, empty pending, pSize 0, parser in AWAITING_CONTROL)
and a live TCP stream; ghost logs empty, default maxPingOut = 2. -/
def client0 : ClientState :=
  { closed := false, connected := false, infoReceived := false, stream := true,
    pingTimer := false, inbound := false, pstate := 0, ssid := 1,
    subs := some [], pending := some [], pSize := 0, pBufs := false,
    pongs := some [], pout := 0, maxPingOut := 2, respmux := none,
    nuidCount := 0, written := [], events := [], calls := [],
    pingsSent := 0, pongsProcessed := 0 }

/-! ## The MSG payload machine (processInbound, lines 1027-1190) -/

/-- The payload record built on a MSG control-line match (lines 1035-1041):
captured subject, sid, optional reply and declared size, with
`psize = size + CR_LF_LEN` bytes left to consume; `chunks` is undefined
until a partial read occurs. -/
structure MsgPayload where
  subj : String
  sid : Nat
  reply : Option String
  size : Nat
  psize : Nat
  chunks : Option (List (List Nat))
deriving DecidableEq

/-- Parser states (lines 43-44): AWAITING_CONTROL (0) carries no payload,
AWAITING_MSG_PAYLOAD (1) carries the pending payload record. -/
inductive ParserState where
  | control
  | payload (p : MsgPayload)
deriving DecidableEq

/-- The numeric constant AWAITING_CONTROL = 0 (line 43). -/
def AWAITING_CONTROL : Int := 0

/-- The numeric constant AWAITING_MSG_PAYLOAD = 1 (line 44). -/
def AWAITING_MSG_PAYLOAD : Int := 1

/-- The MSG branch of the AWAITING_CONTROL case (lines 1034-1042): store
the captures, set `psize = size + 2` and move to AWAITING_MSG_PAYLOAD
(returned as the numeric pstate alongside the payload record). -/
def handleMsgLine (subj : String) (sid : Nat) (reply : Option String) (size : Nat) :
    MsgPayload × Int :=
  ({ subj := subj, sid := sid, reply := reply, size := size, psize := size + 2,
     chunks := none }, AWAITING_MSG_PAYLOAD)

/-- One AWAITING_MSG_PAYLOAD iteration (lines 1112-1165) on the current
inbound buffer: with fewer than `psize` bytes, stash the whole buffer as a
chunk, subtract its length from `psize`, clear inbound and wait; otherwise
assemble the message as the first `size` bytes of the accumulated stream
(Buffer.concat truncated to `size`, or a direct slice when no chunks were
stashed), consume `psize` bytes of inbound (discarding the trailing CRLF)
and return to AWAITING_CONTROL.  Result: new parser state, delivered
message, remaining inbound. -/
def payloadStep (p : MsgPayload) (inbound : List Nat) :
    ParserState × Option (List Nat) × Option (List Nat) :=
  if inbound.length < p.psize then
    (ParserState.payload
      { p with chunks := some (p.chunks.getD [] ++ [inbound]),
               psize := p.psize - inbound.length }, none, none)
  else
    let msg : List Nat :=
      match p.chunks with
      | some cs => ((cs ++ [inbound.take p.psize]).flatten).take p.size
      | none => inbound.take p.size
    let newInbound : Option (List Nat) :=
      if inbound.length = p.psize then none else some (inbound.drop p.psize)
    (ParserState.control, some msg, newInbound)

/-- Feed successive socket data chunks to the payload machine until the
message completes (each `data` event appends to inbound and reruns the
loop; here each chunk arrives while the previous input was fully
consumed).  Returns the final parser state, the delivered message, and the
inbound remainder at completion. -/
def runPayload : MsgPayload → List (List Nat) →
    ParserState × Option (List Nat) × Option (List Nat)
  | p, [] => (ParserState.payload p, none, none)
  | p, c :: cs =>
    match payloadStep p c with
    | (ParserState.payload p1, _, _) => runPayload p1 cs
    | (ParserState.control, m, ib) => (ParserState.control, m, ib)

/-! ## The pending-queue rebuild in createConnection (lines 766-790) -/

/-- The forEach walk of the prior pending queue (lines 770-787), carrying
the running `pongIndex`: a chunk strictly equal to PING_REQUEST whose
matching pong slot exists is kept exactly when that slot is a real
callback (the slot is consumed either way); otherwise a chunk passing the
PUB prefix test is kept; everything else is dropped.  Returns the rebuilt
pending queue, the rebuilt pong queue and the rebuilt pSize. -/
def rebuildWalk (pongs : Option (List (Option Nat))) :
    List Chunk → Nat → List Chunk × List (Option Nat) × Nat
  | [], _ => ([], [], 0)
  | c :: cs, pi =>
    if c = Chunk.str pingStr ∧ pongs.isSome ∧ pi < (pongs.getD []).length then
      let p := (pongs.getD []).getD pi none
      let rest := rebuildWalk pongs cs (pi + 1)
      match p with
      | some f => (c :: rest.1, some f :: rest.2.1, chunkLen c + rest.2.2)
      | none => rest
    else if isPubCmd c then
      let rest := rebuildWalk pongs cs pi
      (c :: rest.1, rest.2.1, chunkLen c + rest.2.2)
    else rebuildWalk pongs cs pi

/-- The pending/pongs/pSize rebuild at the top of
Client.prototype.createConnection (lines 766-790). -/
def createConnectionRebuild (pending : Option (List Chunk))
    (pongs : Option (List (Option Nat))) : List Chunk × List (Option Nat) × Nat :=
  match pending with
  | none => ([], [], 0)
  | some l => rebuildWalk pongs l 0

/-- Modelled from the spec (section 4.H, pending-buffer rebuild): walk the
prior pending queue in order, keeping a PING exactly when its matching
pong-queue slot (consumed in order) holds a non-null callback, and keeping
PUB commands - which the prefix test only recognises on text chunks -
while dropping everything else; pSize accumulates the byte lengths of the
kept chunks. -/
def rebuildSpec : List Chunk → List (Option Nat) → List Chunk × List (Option Nat) × Nat
  | [], _ => ([], [], 0)
  | c :: cs, ps =>
    if c = Chunk.str pingStr then
      match ps with
      | [] => rebuildSpec cs []
      | p :: ps1 =>
        let rest := rebuildSpec cs ps1
        match p with
        | some f => (c :: rest.1, some f :: rest.2.1, chunkLen c + rest.2.2)
        | none => rest
    else if isPubCmd c then
      let rest := rebuildSpec cs ps
      (c :: rest.1, rest.2.1, chunkLen c + rest.2.2)
    else rebuildSpec cs ps

/-! ## Mux request lifecycle for one token (lines 1590-1619, 1704-1733,
1790-1800) -/

/-- The observable state of one mux request: whether its configuration is
still in the request map, its mutable counters, and whether the shared
wildcard subscription has been unsubscribed (nothing in the mux code path
ever does so). -/
structure MuxReqState where
  conf : Option MuxConf
  wildcardUnsubbed : Bool
deriving DecidableEq

/-- External events that can reach one mux request: a reply delivered to
its inbox token, or its timeout timer firing. -/
inductive MuxEvent where
  | deliver
  | timerFire
deriving DecidableEq

/-- A reply delivered by the wildcard-subscription callback installed in
createResponseMux (lines 1709-1724): look the token up; if present, invoke
the request callback, and when `expected` is tracked bump `received` and -
once `received >= expected` - cancel the request (clear timer, delete from
the map; the `unsubscribe` emit there is an event, not an unsubscribe).
Returns the new state and whether the user callback was invoked with a
value. -/
def muxDeliver (s : MuxReqState) : MuxReqState × Bool :=
  match s.conf with
  | none => (s, false)
  | some c =>
    let invoked := c.callbackSet
    match c.expected with
    | some e =>
      let c1 := { c with received := c.received + 1 }
      if e ≤ c1.received then ({ s with conf := none }, invoked)
      else ({ s with conf := some c1 }, invoked)
    | none => ({ s with conf := some c }, invoked)

/-- The request timeout closure (lines 1610-1615): it can fire only while
armed (cancelMuxRequest clears the timer when it removes the
configuration); on fire it invokes the callback with a REQ_TIMEOUT error
if the callback is set, then cancels the mux request.  Returns the new
state and whether the timeout error was delivered. -/
def muxTimerFire (s : MuxReqState) : MuxReqState × Bool :=
  match s.conf with
  | none => (s, false)
  | some c =>
    if c.timerActive then ({ s with conf := none }, c.callbackSet)
    else (s, false)

/-- Run a mux event trace, counting value deliveries and timeout
deliveries. -/
def runMux : MuxReqState → List MuxEvent → MuxReqState × Nat × Nat
  | s, [] => (s, 0, 0)
  | s, e :: es =>
    match e with
    | MuxEvent.deliver =>
      let (s1, v) := muxDeliver s
      let r := runMux s1 es
      (r.1, (if v then 1 else 0) + r.2.1, r.2.2)
    | MuxEvent.timerFire =>
      let (s1, t) := muxTimerFire s
      let r := runMux s1 es
      (r.1, r.2.1, (if t then 1 else 0) + r.2.2)

/-- The state of a mux request as created by `request` with callback, a
positive `max = e` and a timeout (lines 1604-1616): configuration in the
map with `received = 0`, `expected = e`, timer armed; wildcard intact. -/
def muxInit (e : Nat) : MuxReqState :=
  { conf := some
      { token := "tok", callbackSet := true, inbox := "_INBOX.x.tok", id := -1,
        received := 0, expected := some e, timerActive := true },
    wildcardUnsubbed := false }

/-! ## Liveness actions (C6) and delivery/subscription iteration -/

/-- The actions of a connected client that touch the ping/pong machinery:
a flush (with optional callback), a ping-timer firing, and an inbound
PONG. -/
inductive LiveAction where
  | flushA (cb : Option Nat)
  | heartbeatA
  | pongA
deriving DecidableEq

/-- Apply one liveness action. -/
def liveStep (st : ClientState) : LiveAction → ClientState
  | LiveAction.flushA cb => flush st cb
  | LiveAction.heartbeatA => heartbeatFire st
  | LiveAction.pongA => recvPong st

/-- Run a list of liveness actions from a state. -/
def runLive (st : ClientState) : List LiveAction → ClientState
  | [] => st
  | a :: as => runLive (liveStep st a) as

/-- The pong-queue balance invariant: whenever the pong queue exists, the
number of PINGs enqueued and not yet answered by a PONG equals its length;
moreover an existing pong queue comes with an existing pending queue (the
two are nulled together by closeStream/close and rebuilt together by
createConnection). -/
def pongBalance (st : ClientState) : Prop :=
  (∀ l, st.pongs = some l → st.pingsSent = st.pongsProcessed + l.length) ∧
  (st.pongs.isSome → st.pending.isSome)

/-- A connected, handshake-complete client with empty queues: the state in
which the heartbeat/flush/PONG machinery runs. -/
def connClient : ClientState :=
  { client0 with connected := true, infoReceived := true }

/-- Deliver `n` successive MSG payloads for subscription `sid`. -/
def deliverN (sid : Int) (msg : String) : ClientState → Nat → ClientState
  | st, 0 => st
  | st, n + 1 => deliverN sid msg (processMsg st sid msg) n

/-- Iterate `subscribe` (same subject, no options) `n` times, collecting
the returned sids. -/
def subscribeMany (subject : String) : ClientState → Nat → Option (ClientState × List Int)
  | st, 0 => some (st, [])
  | st, n + 1 =>
    match subscribe st subject none none true with
    | none => none
    | some (st1, sid) =>
      match subscribeMany subject st1 n with
      | none => none
      | some (st2, sids) => some (st2, sid :: sids)

/-- Iterate `request` (no max, no timeout) `n` times, collecting the
returned mux ids. -/
def requestMany (subject msg : String) : ClientState → Nat → Option (ClientState × List Int)
  | st, 0 => some (st, [])
  | st, n + 1 =>
    match request st subject msg none false true with
    | none => none
    | some (st1, id) =>
      match requestMany subject msg st1 n with
      | none => none
      | some (st2, ids) => some (st2, id :: ids)

/-- Helper: the remaining number of value deliveries a request can still
make: `expected - received` while registered, 0 once removed. -/
def valBudget (e : Nat) (s : MuxReqState) : Nat :=
  match s.conf with
  | some c => e - c.received
  | none => 0

/-- Helper: the remaining number of timeout deliveries: 1 while the timer
is armed and the request registered, else 0. -/
def tmoBudget (s : MuxReqState) : Nat :=
  match s.conf with
  | some c => if c.timerActive then 1 else 0
  | none => 0

/-- The client state after the first request on a fresh client (used to
evaluate the mux id sequence concretely). -/
def clientR : ClientState :=
  ((request client0 "svc" "msg" none false true).getD (client0, 0)).1

/-- The respmux record of that state. -/
def rmR : RespMux :=
  clientR.respmux.getD
    { inbox := "", inboxPrefixLen := 0, subscriptionID := 0,
      requestMap := [], nextID := 0 }

/-- A subscription with a delivery limit of 3, for evaluating the
auto-unsubscribe behaviour on a concrete client. -/
def subW : Sub :=
  { subject := "bar", callbackSet := true, received := 0, qgroup := none,
    max := some 3, timeoutActive := false, expected := none }

/-- A fresh client carrying only that subscription under sid 2. -/
def clientW : ClientState :=
  { client0 with subs := some [((2 : Int), subW)] }

/-! ## Claim theorems -/

/-- C8: close() is idempotent: the first call cancels the ping timer,
destroys the socket, and nulls subs, pending, and pongs; a second call to
close() on the already-closed client raises no error (close is a total
function of the state) and leaves the client state exactly as the first
call left it. -/
theorem c8_close_idempotent (st : ClientState) :
    close (close st) = close st ∧
    (close st).pingTimer = false ∧ (close st).stream = false ∧
    (close st).subs = none ∧ (close st).pending = none ∧
    (close st).pongs = none ∧ (close st).closed = true := by
  cases st
  rename_i closed connected infoReceived stream pingTimer inbound pstate ssid subs
    pending pSize pBufs pongs pout maxPingOut respmux nuidCount written events calls
    pingsSent pongsProcessed
  cases pingTimer <;> cases stream <;> simp [close, closeStream]

/-- C10: unsubscribe called with sid 0 (any falsy sid is modelled by the
falsy number 0), or called on a closed client, returns immediately: the
state is returned unchanged, so no UNSUB command is enqueued and subs,
pending, pSize and pongs are all left as they were. -/
theorem c10_unsubscribe_guard (st : ClientState) (sid : Int) (optMax : Option Nat)
    (h : sid = 0 ∨ st.closed = true) :
    unsubscribe st sid optMax = st := by
  unfold unsubscribe
  rcases h with h | h <;> simp [h]

/-- C10 witness: the guard at a concrete closed-free client and sid 0. -/
theorem c10_unsubscribe_guard_witness :
    unsubscribe client0 0 (some 5) = client0 :=
  c10_unsubscribe_guard client0 0 (some 5) (Or.inl rfl)

/-- C5: for every -ERR text received from the server, matching is
case-insensitive (the text is lower-cased before the containment tests):
if it contains "stale connection" the client just closes the stream
(driving reconnect) and emits no event; otherwise if it contains
"permissions violation" the client emits permission_error and does not
close the stream; for any other text the client emits error and closes the
stream. -/
theorem c5_process_err_dispatch (st : ClientState) (text : String) :
    (containsSubstr (jsToLower text) staleConnectionErr = true →
      processErr st (some text) = closeStream st) ∧
    (containsSubstr (jsToLower text) staleConnectionErr = false →
      containsSubstr (jsToLower text) permissionsErr = true →
      processErr st (some text) =
        { st with events := st.events ++ [EmittedEvent.permissionErrorEv text] }) ∧
    (containsSubstr (jsToLower text) staleConnectionErr = false →
      containsSubstr (jsToLower text) permissionsErr = false →
      processErr st (some text) =
        closeStream { st with events := st.events ++ [EmittedEvent.errorEv text] }) := by
  refine ⟨fun h1 => ?_, fun h1 h2 => ?_, fun h1 h2 => ?_⟩ <;>
    simp [processErr, h1]
  · simp [h2]
  · simp [h2]

/-- C5 witness: the three dispatch branches at concrete mixed-case error
texts on a concrete client. -/
theorem c5_process_err_dispatch_witness :
    processErr client0 (some "Stale Connection detected") = closeStream client0 ∧
    processErr client0 (some "Permissions Violation for subscription to foo") =
      { client0 with events := client0.events ++
          [EmittedEvent.permissionErrorEv "Permissions Violation for subscription to foo"] } ∧
    processErr client0 (some "Unknown Protocol Operation") =
      closeStream { client0 with events := client0.events ++
          [EmittedEvent.errorEv "Unknown Protocol Operation"] } :=
  ⟨(c5_process_err_dispatch client0 "Stale Connection detected").1 (by decide),
   (c5_process_err_dispatch client0 "Permissions Violation for subscription to foo").2.1
     (by decide) (by decide),
   (c5_process_err_dispatch client0 "Unknown Protocol Operation").2.2
     (by decide) (by decide)⟩

/-- Helper: taking at most the length of the left part of an append ignores
the right part. -/
lemma take_append_left_of_le {α : Type} (l₁ l₂ : List α) (n : Nat)
    (h : n ≤ l₁.length) : (l₁ ++ l₂).take n = l₁.take n := by
  rw [List.take_append_eq_append_take, Nat.sub_eq_zero_of_le h]
  simp

/-- Helper: a payload machine whose accumulated chunks and remaining psize
are consistent with a declared size delivers the first `size` bytes of the
total stream once enough bytes arrive. -/
lemma runPayload_completes (size : Nat) :
    ∀ (cs : List (List Nat)) (p : MsgPayload),
      p.size = size →
      p.psize + ((p.chunks.getD []).flatten).length = size + 2 →
      0 < p.psize →
      p.psize ≤ (cs.flatten).length →
      ∃ ib, runPayload p cs =
        (ParserState.control,
         some ((((p.chunks.getD []).flatten) ++ cs.flatten).take size), ib) := by
  intro cs
  induction cs with
  | nil =>
    intro p _ _ h3 h4
    simp at h4
    omega
  | cons c cs ih =>
    intro p hsz hinv hpos hle
    simp only [List.flatten_cons, List.length_append] at hle
    by_cases hc : c.length < p.psize
    · have hstep : payloadStep p c = (ParserState.payload
          { p with chunks := some (p.chunks.getD [] ++ [c]),
                   psize := p.psize - c.length }, none, none) := by
        simp [payloadStep, hc]
      have hrec := ih { p with chunks := some (p.chunks.getD [] ++ [c]),
                               psize := p.psize - c.length }
        hsz
        (by show p.psize - c.length + ((p.chunks.getD [] ++ [c]).flatten).length = size + 2
            rw [List.flatten_append]
            simp only [List.flatten_cons, List.flatten_nil, List.append_nil,
              List.length_append]
            omega)
        (by show 0 < p.psize - c.length
            omega)
        (by show p.psize - c.length ≤ (cs.flatten).length
            omega)
      obtain ⟨ib, hib⟩ := hrec
      refine ⟨ib, ?_⟩
      simp only [runPayload, hstep, hib]
      simp [List.flatten_append, List.append_assoc]
    · push_neg at hc
      cases hch : p.chunks with
      | none =>
        have hps : p.psize = size + 2 := by
          rw [hch] at hinv
          simpa using hinv
        have hstep : payloadStep p c =
            (ParserState.control, some (c.take p.size),
             if c.length = p.psize then none else some (c.drop p.psize)) := by
          rw [payloadStep, if_neg (by omega), hch]
        refine ⟨if c.length = p.psize then none else some (c.drop p.psize), ?_⟩
        simp only [runPayload, hstep]
        rw [hsz]
        simp only [Option.getD_none, List.flatten_nil, List.nil_append, List.flatten_cons]
        rw [take_append_left_of_le c (cs.flatten) size (by omega)]
      | some L =>
        have hstep : payloadStep p c =
            (ParserState.control, some (((L ++ [c.take p.psize]).flatten).take p.size),
             if c.length = p.psize then none else some (c.drop p.psize)) := by
          rw [payloadStep, if_neg (by omega), hch]
        refine ⟨if c.length = p.psize then none else some (c.drop p.psize), ?_⟩
        simp only [runPayload, hstep]
        rw [hch] at hinv
        simp only [Option.getD_some] at hinv ⊢
        have hmsg : ((L ++ [c.take p.psize]).flatten).take size =
            (L.flatten ++ (c ++ cs.flatten)).take size := by
          have hflat : (L ++ [c.take p.psize]).flatten = L.flatten ++ c.take p.psize := by
            simp [List.flatten_append]
          rw [hflat, List.take_append_eq_append_take, List.take_append_eq_append_take]
          have hk : size - L.flatten.length ≤ p.psize := by omega
          have hkc : size - L.flatten.length ≤ c.length := le_trans hk hc
          rw [List.take_take, Nat.min_eq_left hk,
              take_append_left_of_le c (cs.flatten) _ hkc]
        rw [hsz, hmsg, List.flatten_cons]

/-- C2: for every MSG control line with declared size s, the parser moves
from AWAITING_CONTROL to AWAITING_MSG_PAYLOAD with psize = s + 2 bytes
remaining; while fewer than psize bytes are buffered it consumes what is
available (stashing it as a chunk and decrementing psize) and waits; once
psize bytes are available it delivers exactly the first s bytes of the
stream as the payload, discards the trailing 2-byte CRLF, and returns to
AWAITING_CONTROL. -/
theorem c2_msg_payload_framing :
    (∀ subj sid reply size,
      handleMsgLine subj sid reply size =
        ({ subj := subj, sid := sid, reply := reply, size := size,
           psize := size + 2, chunks := none }, AWAITING_MSG_PAYLOAD)) ∧
    (∀ p c, c.length < p.psize →
      payloadStep p c = (ParserState.payload
        { p with chunks := some (p.chunks.getD [] ++ [c]),
                 psize := p.psize - c.length }, none, none)) ∧
    (∀ subj sid reply size cs, size + 2 ≤ (cs.flatten).length →
      ∃ ib, runPayload (handleMsgLine subj sid reply size).1 cs =
        (ParserState.control, some ((cs.flatten).take size), ib)) := by
  refine ⟨fun _ _ _ _ => rfl, fun p c h => by simp [payloadStep, h],
    fun subj sid reply size cs h => ?_⟩
  have hrun := runPayload_completes size cs (handleMsgLine subj sid reply size).1
    rfl rfl (by show 0 < size + 2; omega) h
  simpa [handleMsgLine] using hrun

/-- C2 witness: a 3-byte message split across chunks of 2, 3 and 1 bytes:
the first chunk waits, the second completes the psize = 5 bytes, and the
delivered payload is the first 3 bytes of the stream. -/
theorem c2_msg_payload_framing_witness :
    (3 + 2 ≤ (([[10, 20], [30, 40, 50], [60]] : List (List Nat)).flatten).length) ∧
    (∃ ib, runPayload (handleMsgLine "foo" 4 none 3).1 [[10, 20], [30, 40, 50], [60]] =
      (ParserState.control,
       some ((([[10, 20], [30, 40, 50], [60]] : List (List Nat)).flatten).take 3), ib)) :=
  ⟨by decide,
   c2_msg_payload_framing.2.2 "foo" 4 none 3 [[10, 20], [30, 40, 50], [60]] (by decide)⟩

/-- Helper: the PING_REQUEST string fails the PUB prefix test. -/
lemma isPubCmd_ping : isPubCmd (Chunk.str pingStr) = false := by decide

/-- Helper: the indexed forEach walk of createConnection equals the
spec-level recursion that consumes the pong list alongside the pending
list. -/
lemma rebuildWalk_eq_spec (ps : List (Option Nat)) :
    ∀ (cs : List Chunk) (i : Nat),
      rebuildWalk (some ps) cs i = rebuildSpec cs (ps.drop i) := by
  intro cs
  induction cs with
  | nil => intro i; rfl
  | cons c cs ih =>
    intro i
    by_cases hping : c = Chunk.str pingStr
    · by_cases hlt : i < ps.length
      · have hdrop : ps.drop i = ps.getD i none :: ps.drop (i + 1) := by
          rw [List.drop_eq_getElem_cons hlt]
          congr 1
          rw [List.getD_eq_getElem?_getD, List.getElem?_eq_getElem hlt]
          rfl
        simp only [rebuildWalk, rebuildSpec]
        rw [if_pos ⟨hping, rfl, hlt⟩, if_pos hping, hdrop]
        simp only [Option.getD_some]
        cases hp : ps.getD i none with
        | some f => simp [ih]
        | none => simp [ih]
      · have hdrop : ps.drop i = [] := List.drop_eq_nil_of_le (by omega)
        simp only [rebuildWalk, rebuildSpec]
        rw [if_neg (by simp [hlt]), if_pos hping, hdrop, hping, isPubCmd_ping]
        simp only [Bool.false_eq_true, if_false]
        rw [← hdrop, ih]
    · have hcond : ¬(c = Chunk.str pingStr ∧ (some ps : Option (List (Option Nat))).isSome = true
          ∧ i < ((some ps : Option (List (Option Nat))).getD []).length) :=
        fun h => hping h.1
      simp only [rebuildWalk, rebuildSpec]
      rw [if_neg hcond, if_neg hping]
      by_cases hpub : isPubCmd c <;> simp [hpub, ih]

/-- Helper: in the spec-level rebuild the accumulated size is the sum of
the byte lengths of the kept chunks. -/
lemma rebuildSpec_pSize : ∀ (cs : List Chunk) (ps : List (Option Nat)),
    (rebuildSpec cs ps).2.2 = (((rebuildSpec cs ps).1).map chunkLen).sum := by
  intro cs
  induction cs with
  | nil => intro ps; rfl
  | cons c cs ih =>
    intro ps
    simp only [rebuildSpec]
    by_cases hping : c = Chunk.str pingStr
    · rw [if_pos hping]
      cases ps with
      | nil => exact ih []
      | cons p ps1 =>
        cases p with
        | some f => simp [ih ps1]
        | none => exact ih ps1
    · rw [if_neg hping]
      by_cases hpub : isPubCmd c
      · simp [hpub, ih ps]
      · simp [hpub, ih ps]

/-- Helper: every chunk kept by the spec-level rebuild is a text chunk. -/
lemma rebuildSpec_all_str : ∀ (cs : List Chunk) (ps : List (Option Nat)),
    (((rebuildSpec cs ps).1).all isStrChunk) = true := by
  intro cs
  induction cs with
  | nil => intro ps; rfl
  | cons c cs ih =>
    intro ps
    simp only [rebuildSpec]
    by_cases hping : c = Chunk.str pingStr
    · rw [if_pos hping]
      cases ps with
      | nil => exact ih []
      | cons p ps1 =>
        cases p with
        | some f => simp [hping, isStrChunk, ih ps1]
        | none => exact ih ps1
    · rw [if_neg hping]
      by_cases hpub : isPubCmd c
      · cases c with
        | str s => simp [isStrChunk, hpub, ih ps]
        | buf bs => simp [isPubCmd] at hpub
      · simp [hpub, ih ps]

/-- C3 counterexample: a PUB command enqueued as a binary buffer (the bytes
of "PUB a 1", CRLF, "x", CRLF, as built by publish at lines 1419-1425) is
discarded by the createConnection rebuild - the rebuilt pending queue is
empty and pSize is 0, although the chunk begins with the bytes of P, U, B
(80, 85, 66).  The claim requires such a chunk to be kept. -/
theorem c3_rebuild_drops_buffer_pub :
    createConnectionRebuild
      (some [Chunk.buf [80, 85, 66, 32, 97, 32, 49, 13, 10, 120, 13, 10]])
      (some []) = ([], [], 0) ∧
    ([80, 85, 66, 32, 97, 32, 49, 13, 10, 120, 13, 10] : List Nat).take 3
      = [80, 85, 66] := by
  decide

/-- C3 (amended): on every dial attempt the rebuilt pending queue keeps, in
their original order, exactly (a) the PUB commands that are text chunks -
the byte-vs-character comparison of the prefix test never recognises a PUB
enqueued as a binary buffer, so buffer PUBs are discarded - and (b) the
PING commands whose matching pong-queue slot holds a non-null callback;
every other chunk (CONNECT, SUB, UNSUB, and PINGs whose pong slot is empty)
is discarded, and the rebuilt pSize equals the sum of byte lengths of the
kept chunks. -/
theorem c3_pending_rebuild_characterization (pending : List Chunk)
    (pongs : List (Option Nat)) :
    createConnectionRebuild (some pending) (some pongs) = rebuildSpec pending pongs ∧
    (createConnectionRebuild (some pending) (some pongs)).2.2 =
      (((createConnectionRebuild (some pending) (some pongs)).1).map chunkLen).sum ∧
    (((createConnectionRebuild (some pending) (some pongs)).1).all isStrChunk) = true := by
  have heq : createConnectionRebuild (some pending) (some pongs) =
      rebuildSpec pending pongs := by
    show rebuildWalk (some pongs) pending 0 = rebuildSpec pending pongs
    rw [rebuildWalk_eq_spec pongs pending 0]
    rfl
  refine ⟨heq, ?_, ?_⟩
  · rw [heq]; exact rebuildSpec_pSize pending pongs
  · rw [heq]; exact rebuildSpec_all_str pending pongs

/-- Helper: once the configuration is gone from the request map, nothing
happens any more: no deliveries, no timeouts, no state change. -/
lemma runMux_frozen : ∀ (evs : List MuxEvent) (s : MuxReqState),
    s.conf = none → runMux s evs = (s, 0, 0) := by
  intro evs
  induction evs with
  | nil => intro s _; rfl
  | cons ev evs ih =>
    intro s h
    cases ev with
    | deliver => simp [runMux, muxDeliver, h, ih s h]
    | timerFire => simp [runMux, muxTimerFire, h, ih s h]

/-- Helper: the inductive invariant of the mux request lifecycle: value
deliveries stay within the remaining budget, at most one timeout fires,
the wildcard subscription is never touched, and once a timeout has been
delivered the configuration is gone. -/
lemma runMux_invariant (e : Nat) :
    ∀ (evs : List MuxEvent) (s : MuxReqState),
      (∀ c, s.conf = some c → c.expected = some e ∧ c.received < e) →
      (runMux s evs).2.1 ≤ valBudget e s ∧
      (runMux s evs).2.2 ≤ tmoBudget s ∧
      (runMux s evs).1.wildcardUnsubbed = s.wildcardUnsubbed ∧
      (1 ≤ (runMux s evs).2.2 → (runMux s evs).1.conf = none) := by
  intro evs
  induction evs with
  | nil =>
    intro s _
    exact ⟨Nat.zero_le _, Nat.zero_le _, rfl, by intro h; simp [runMux] at h⟩
  | cons ev evs ih =>
    intro s H
    cases ev with
    | deliver =>
      cases hc : s.conf with
      | none =>
        have hfr := runMux_frozen (MuxEvent.deliver :: evs) s hc
        rw [hfr]
        exact ⟨Nat.zero_le _, Nat.zero_le _, rfl, fun _ => hc⟩
      | some c =>
        obtain ⟨hexp, hrec⟩ := H c hc
        have hif : (if c.callbackSet = true then 1 else 0) ≤ 1 := by
          split <;> omega
        by_cases hdone : e ≤ c.received + 1
        · have hstep : muxDeliver s = ({ s with conf := none }, c.callbackSet) := by
            simp only [muxDeliver, hc, hexp]
            rw [if_pos hdone]
          have hfr := runMux_frozen evs { s with conf := none } rfl
          simp only [runMux, hstep, hfr]
          refine ⟨?_, Nat.zero_le _, by simp, fun _ => by simp⟩
          show (if c.callbackSet = true then 1 else 0) + 0 ≤ valBudget e s
          have hbv : valBudget e s = e - c.received := by simp [valBudget, hc]
          rw [hbv]
          omega
        · have hstep : muxDeliver s =
              ({ s with conf := some { c with received := c.received + 1 } }, c.callbackSet) := by
            simp only [muxDeliver, hc, hexp]
            rw [if_neg hdone]
          have H1 : ∀ c1, ({ s with conf := some { c with received := c.received + 1 } }
              : MuxReqState).conf = some c1 → c1.expected = some e ∧ c1.received < e := by
            intro c1 h1
            simp only [Option.some.injEq] at h1
            rw [← h1]
            refine ⟨hexp, ?_⟩
            show c.received + 1 < e
            omega
          obtain ⟨ih1, ih2, ih3, ih4⟩ :=
            ih { s with conf := some { c with received := c.received + 1 } } H1
          simp only [runMux, hstep]
          refine ⟨?_, ?_, ih3, ?_⟩
          · have hb1 : valBudget e { s with conf := some { c with received := c.received + 1 } }
                = e - (c.received + 1) := by simp [valBudget]
            have hb0 : valBudget e s = e - c.received := by simp [valBudget, hc]
            rw [hb1] at ih1
            rw [hb0]
            omega
          · have hb1 : tmoBudget { s with conf := some { c with received := c.received + 1 } }
                = tmoBudget s := by simp [tmoBudget, hc]
            rw [hb1] at ih2
            exact ih2
          · exact ih4
    | timerFire =>
      cases hc : s.conf with
      | none =>
        have hfr := runMux_frozen (MuxEvent.timerFire :: evs) s hc
        rw [hfr]
        exact ⟨Nat.zero_le _, Nat.zero_le _, rfl, fun _ => hc⟩
      | some c =>
        have hif : (if c.callbackSet = true then 1 else 0) ≤ 1 := by
          split <;> omega
        by_cases hta : c.timerActive
        · have hstep : muxTimerFire s = ({ s with conf := none }, c.callbackSet) := by
            simp only [muxTimerFire, hc]
            rw [if_pos hta]
          have hfr := runMux_frozen evs { s with conf := none } rfl
          simp only [runMux, hstep, hfr]
          refine ⟨Nat.zero_le _, ?_, by simp, fun _ => by simp⟩
          show (if c.callbackSet = true then 1 else 0) + 0 ≤ tmoBudget s
          have hbt : tmoBudget s = 1 := by simp [tmoBudget, hc, hta]
          rw [hbt]
          omega
        · have hstep : muxTimerFire s = (s, false) := by
            simp only [muxTimerFire, hc]
            rw [if_neg hta]
          obtain ⟨ih1, ih2, ih3, ih4⟩ := ih s (by intro c1 h1; exact H c1 h1)
          simp only [runMux, hstep]
          refine ⟨ih1, ?_, ih3, ?_⟩
          · simpa using ih2
          · simpa using ih4

/-- Helper: running an appended trace accumulates the counts of the two
parts. -/
lemma runMux_append : ∀ (l1 l2 : List MuxEvent) (s : MuxReqState),
    runMux s (l1 ++ l2) =
      ((runMux (runMux s l1).1 l2).1,
       (runMux s l1).2.1 + (runMux (runMux s l1).1 l2).2.1,
       (runMux s l1).2.2 + (runMux (runMux s l1).1 l2).2.2) := by
  intro l1
  induction l1 with
  | nil => intro l2 s; simp [runMux]
  | cons ev l1 ih =>
    intro l2 s
    cases ev with
    | deliver =>
      rcases hms : muxDeliver s with ⟨s1, v⟩
      rw [List.cons_append]
      simp only [runMux, hms]
      rw [ih l2 s1]
      simp only [Prod.mk.injEq]
      refine ⟨?_, ?_, ?_⟩ <;> first | trivial | omega
    | timerFire =>
      rcases hms : muxTimerFire s with ⟨s1, t⟩
      rw [List.cons_append]
      simp only [runMux, hms]
      rw [ih l2 s1]
      simp only [Prod.mk.injEq]
      refine ⟨?_, ?_, ?_⟩ <;> first | trivial | omega

/-- C7: for every mux request with expected = e (requestOne forces e = 1)
and a timeout, over any event trace the caller callback is invoked at most
e times with a reply value plus at most once with a REQ_TIMEOUT error - at
most e + 1 invocations in total; once the REQ_TIMEOUT error has been
delivered the request is removed from the request map, so extending the
trace delivers no further value callback for that token; and cancellation
never unsubscribes the shared wildcard subscription. -/
theorem c7_mux_request_callback_bounds (e : Nat) (he : 1 ≤ e) (evs : List MuxEvent) :
    (runMux (muxInit e) evs).2.1 ≤ e ∧
    (runMux (muxInit e) evs).2.2 ≤ 1 ∧
    (runMux (muxInit e) evs).2.1 + (runMux (muxInit e) evs).2.2 ≤ e + 1 ∧
    (runMux (muxInit e) evs).1.wildcardUnsubbed = false ∧
    (∀ evs2, 1 ≤ (runMux (muxInit e) evs).2.2 →
      (runMux (muxInit e) (evs ++ evs2)).2.1 = (runMux (muxInit e) evs).2.1) := by
  have H : ∀ c, (muxInit e).conf = some c → c.expected = some e ∧ c.received < e := by
    intro c hc
    simp only [muxInit, Option.some.injEq] at hc
    rw [← hc]
    exact ⟨rfl, he⟩
  obtain ⟨h1, h2, h3, h4⟩ := runMux_invariant e evs (muxInit e) H
  have hvb : valBudget e (muxInit e) = e := by simp [valBudget, muxInit]
  have htb : tmoBudget (muxInit e) = 1 := by simp [tmoBudget, muxInit]
  rw [hvb] at h1
  rw [htb] at h2
  refine ⟨h1, h2, by omega, by rw [h3]; rfl, ?_⟩
  intro evs2 hT
  have hnone := h4 hT
  rw [runMux_append evs evs2 (muxInit e), runMux_frozen evs2 _ hnone]
  simp

/-- C7 witness: with e = 1 the timeout fires once (one REQ_TIMEOUT
delivery), and a reply arriving afterwards delivers no value. -/
theorem c7_mux_request_callback_bounds_witness :
    (runMux (muxInit 1) [MuxEvent.timerFire]).2.2 ≤ 1 ∧
    (runMux (muxInit 1) ([MuxEvent.timerFire] ++ [MuxEvent.deliver])).2.1 =
      (runMux (muxInit 1) [MuxEvent.timerFire]).2.1 :=
  ⟨(c7_mux_request_callback_bounds 1 (by decide) [MuxEvent.timerFire]).2.1,
   (c7_mux_request_callback_bounds 1 (by decide) [MuxEvent.timerFire]).2.2.2.2
     [MuxEvent.deliver] (by decide)⟩

/-- Helper: fields sendCommand never touches. -/
lemma sendCommand_frame (st : ClientState) (c : Chunk) :
    (sendCommand st c).pongs = st.pongs ∧
    (sendCommand st c).pongsProcessed = st.pongsProcessed ∧
    (sendCommand st c).closed = st.closed ∧
    (sendCommand st c).connected = st.connected ∧
    (sendCommand st c).pout = st.pout ∧
    (sendCommand st c).ssid = st.ssid ∧
    (sendCommand st c).subs = st.subs ∧
    (sendCommand st c).respmux = st.respmux ∧
    (sendCommand st c).calls = st.calls ∧
    (sendCommand st c).events = st.events := by
  unfold sendCommand flushPending
  split_ifs <;>
    simp [apply_ite ClientState.pongs, apply_ite ClientState.pongsProcessed,
      apply_ite ClientState.closed, apply_ite ClientState.connected,
      apply_ite ClientState.pout, apply_ite ClientState.ssid,
      apply_ite ClientState.subs, apply_ite ClientState.respmux,
      apply_ite ClientState.calls, apply_ite ClientState.events]

/-- Helper: fields flushPending never touches, and that it keeps an
existing pending queue existing. -/
lemma flushPending_frame (st : ClientState) :
    (flushPending st).pongs = st.pongs ∧
    (flushPending st).pingsSent = st.pingsSent ∧
    (flushPending st).pongsProcessed = st.pongsProcessed ∧
    (flushPending st).closed = st.closed ∧
    (flushPending st).connected = st.connected ∧
    (flushPending st).pout = st.pout ∧
    (flushPending st).pending.isSome = st.pending.isSome := by
  unfold flushPending
  split_ifs with hcond
  · simp
  · push_neg at hcond
    obtain ⟨pd, hpd⟩ := Option.isSome_iff_exists.mp
      (Option.ne_none_iff_isSome.mp hcond.2.1)
    simp [hpd]

/-- Helper: enqueueing a PING on an open client with a live pending queue
bumps the ghost ping counter by one and leaves the pong machinery alone. -/
lemma sendCommand_ping (st : ClientState) (pd : List Chunk)
    (h1 : st.closed = false) (h2 : st.pending = some pd) :
    (sendCommand st (Chunk.str pingStr)).pingsSent = st.pingsSent + 1 ∧
    (sendCommand st (Chunk.str pingStr)).pongs = st.pongs ∧
    (sendCommand st (Chunk.str pingStr)).pongsProcessed = st.pongsProcessed ∧
    (sendCommand st (Chunk.str pingStr)).pending.isSome = true := by
  unfold sendCommand flushPending
  rw [h1, h2]
  split_ifs <;>
    simp_all [apply_ite ClientState.pingsSent, apply_ite ClientState.pongs,
      apply_ite ClientState.pongsProcessed, apply_ite ClientState.pending,
      apply_ite Option.isSome]

/-- Helper: processErr on the stale-connection text just closes the
stream. -/
lemma processErr_stale (st : ClientState) :
    processErr st (some staleConnectionErr) = closeStream st := by
  have hc : containsSubstr (jsToLower staleConnectionErr) staleConnectionErr = true := by
    decide
  simp [processErr, hc]

/-- Helper: closeStream keeps the ghost counters and either leaves the
pong/pending pair alone or nulls the pong queue. -/
lemma closeStream_frame (st : ClientState) :
    (closeStream st).pingsSent = st.pingsSent ∧
    (closeStream st).pongsProcessed = st.pongsProcessed ∧
    (((closeStream st).pongs = st.pongs ∧ (closeStream st).pending = st.pending) ∨
      (closeStream st).pongs = none) := by
  unfold closeStream
  by_cases hs : st.stream = true <;>
    by_cases hc : st.connected = true ∨ st.closed = true <;>
      simp [hs, hc]

/-- Helper: flush preserves the pong balance. -/
lemma pongBalance_flush (st : ClientState) (cb : Option Nat) (h : pongBalance st) :
    pongBalance (flush st cb) := by
  unfold flush
  split_ifs with hcl
  · cases cb with
    | some t =>
      constructor
      · intro l hl
        simp at hl
        exact h.1 l hl
      · intro hs
        simp at hs ⊢
        exact h.2 (by simpa using hs)
    | none => exact h
  · cases hpg : st.pongs with
    | none => simp only [hpg]; exact h
    | some l =>
      simp only [hpg]
      have hpend : st.pending.isSome = true := h.2 (by simp [hpg])
      obtain ⟨pd, hpd⟩ := Option.isSome_iff_exists.mp hpend
      have hsc := sendCommand_ping { st with pongs := some (l ++ [cb]) } pd
        (by simpa using hcl) (by simpa using hpd)
      have hB1 : (sendCommand { st with pongs := some (l ++ [cb]) }
          (Chunk.str pingStr)).pingsSent = st.pingsSent + 1 := by simpa using hsc.1
      have hB2 : (sendCommand { st with pongs := some (l ++ [cb]) }
          (Chunk.str pingStr)).pongs = some (l ++ [cb]) := by simpa using hsc.2.1
      have hB3 : (sendCommand { st with pongs := some (l ++ [cb]) }
          (Chunk.str pingStr)).pongsProcessed = st.pongsProcessed := by
        simpa using hsc.2.2.1
      have hB4 : (sendCommand { st with pongs := some (l ++ [cb]) }
          (Chunk.str pingStr)).pending.isSome = true := hsc.2.2.2
      have hfp := flushPending_frame
        (sendCommand { st with pongs := some (l ++ [cb]) } (Chunk.str pingStr))
      refine ⟨?_, ?_⟩
      · intro l2 hl2
        rw [hfp.1, hB2] at hl2
        have hl2e : l ++ [cb] = l2 := by
          simpa using hl2
        rw [hfp.2.1, hB1, hfp.2.2.1, hB3, ← hl2e]
        have hbal := h.1 l hpg
        simp only [List.length_append, List.length_cons, List.length_nil]
        omega
      · intro _
        rw [hfp.2.2.2.2.2.2, hB4]

/-- Helper: the pong balance only depends on four fields. -/
lemma pongBalance_of_fields {st st2 : ClientState} (h : pongBalance st)
    (h1 : st2.pongs = st.pongs) (h2 : st2.pending = st.pending)
    (h3 : st2.pingsSent = st.pingsSent) (h4 : st2.pongsProcessed = st.pongsProcessed) :
    pongBalance st2 := by
  constructor
  · intro l hl
    rw [h3, h4]
    exact h.1 l (h1.symm.trans hl)
  · intro hs
    rw [h2]
    exact h.2 (by rw [← h1]; exact hs)

/-- Helper: sending a PING and pushing an undefined pong slot (the
heartbeat send path) preserves the pong balance. -/
lemma pongBalance_send_push (s : ClientState) (hcl : s.closed = false)
    (h : pongBalance s) :
    pongBalance (match (sendCommand s (Chunk.str pingStr)).pongs with
      | some l => { sendCommand s (Chunk.str pingStr) with pongs := some (l ++ [none]) }
      | none => sendCommand s (Chunk.str pingStr)) := by
  have hfr := sendCommand_frame s (Chunk.str pingStr)
  cases hpg : s.pongs with
  | none =>
    have hp2 : (sendCommand s (Chunk.str pingStr)).pongs = none := hfr.1.trans hpg
    rw [hp2]
    refine ⟨fun l hl => ?_, fun hs => ?_⟩
    · rw [hp2] at hl
      simp at hl
    · rw [hp2] at hs
      simp at hs
  | some l =>
    have hpend : s.pending.isSome = true := h.2 (by simp [hpg])
    obtain ⟨pd, hpd⟩ := Option.isSome_iff_exists.mp hpend
    have hsc := sendCommand_ping s pd hcl hpd
    have hp2 : (sendCommand s (Chunk.str pingStr)).pongs = some l := hsc.2.1.trans hpg
    rw [hp2]
    refine ⟨fun l2 hl2 => ?_, fun hs => ?_⟩
    · have hl2e : l ++ [none] = l2 := by simpa using hl2
      have hbal := h.1 l hpg
      show (sendCommand s (Chunk.str pingStr)).pingsSent =
        (sendCommand s (Chunk.str pingStr)).pongsProcessed + l2.length
      rw [hsc.1, hsc.2.2.1, ← hl2e]
      simp only [List.length_append, List.length_cons, List.length_nil]
      omega
    · show (sendCommand s (Chunk.str pingStr)).pending.isSome = true
      exact hsc.2.2.2

/-- Helper: the heartbeat-timer firing preserves the pong balance. -/
lemma pongBalance_heartbeat (st : ClientState) (h : pongBalance st) :
    pongBalance (heartbeatFire st) := by
  unfold heartbeatFire
  simp only []
  by_cases hcl : st.closed = true
  · rw [if_pos hcl]
    exact pongBalance_of_fields h rfl rfl rfl rfl
  · rw [if_neg hcl]
    by_cases hstr : st.stream = true
    · rw [if_pos hstr]
      by_cases hmax : st.maxPingOut < st.pout + 1
      · rw [if_pos hmax]
        rw [processErr_stale]
        have hst1 : pongBalance { st with
            events := (st.events ++ [EmittedEvent.pingtimerEv]) ++
              [EmittedEvent.pingcountEv st.pout],
            pout := st.pout + 1 } :=
          pongBalance_of_fields h rfl rfl rfl rfl
        obtain ⟨f1, f2, f3⟩ := closeStream_frame { st with
            events := (st.events ++ [EmittedEvent.pingtimerEv]) ++
              [EmittedEvent.pingcountEv st.pout],
            pout := st.pout + 1 }
        rcases f3 with ⟨hp, hpe⟩ | hnone
        · exact pongBalance_of_fields hst1 hp hpe f1 f2
        · constructor
          · intro l hl
            rw [hnone] at hl
            simp at hl
          · intro hs
            rw [hnone] at hs
            simp at hs
      · rw [if_neg hmax]
        exact pongBalance_send_push _ (by simpa using hcl)
          (pongBalance_of_fields h rfl rfl rfl rfl)
    · rw [if_neg hstr]
      exact pongBalance_of_fields h rfl rfl rfl rfl

/-- Helper: processing a PONG preserves the pong balance. -/
lemma pongBalance_pong (st : ClientState) (h : pongBalance st) :
    pongBalance (recvPong st) := by
  unfold recvPong
  cases hpg : st.pongs with
  | none =>
    simp only [hpg]
    exact pongBalance_of_fields h (by rw [hpg]) rfl rfl rfl
  | some l =>
    cases l with
    | nil =>
      simp only [hpg]
      exact pongBalance_of_fields h (by rw [hpg]) rfl rfl rfl
    | cons c rest =>
      simp only [hpg]
      have hbal := h.1 (c :: rest) hpg
      have hpend := h.2 (by simp [hpg])
      cases c with
      | some f =>
        constructor
        · intro l2 hl2
          have : rest = l2 := by simpa using hl2
          rw [← this]
          simp only [List.length_cons] at hbal
          simp
          omega
        · intro _
          simpa using hpend
      | none =>
        constructor
        · intro l2 hl2
          have : rest = l2 := by simpa using hl2
          rw [← this]
          simp only [List.length_cons] at hbal
          simp
          omega
        · intro _
          simpa using hpend

/-- Helper: the balance holds at every state reachable by liveness
actions. -/
lemma pongBalance_runLive : ∀ (as : List LiveAction) (st : ClientState),
    pongBalance st → pongBalance (runLive st as) := by
  intro as
  induction as with
  | nil => intro st h; exact h
  | cons a as ih =>
    intro st h
    cases a with
    | flushA cb => exact ih _ (pongBalance_flush st cb h)
    | heartbeatA => exact ih _ (pongBalance_heartbeat st h)
    | pongA => exact ih _ (pongBalance_pong st h)

/-- Helper: the freshly connected client satisfies the pong balance. -/
lemma pongBalance_connClient : pongBalance connClient := by
  constructor
  · intro l hl
    simp [connClient, client0] at hl
    simp [connClient, client0, hl]
  · intro _
    simp [connClient, client0]

/-- C6: at every state of a connected client reachable by flushes,
heartbeat firings and received PONGs, the number of PINGs sent but not yet
answered (pingsSent - pongsProcessed) equals the length of the pong queue;
every PING enqueued by flush or by the heartbeat timer pushes exactly one
entry onto the pong queue while bumping the sent counter by one; and every
PONG received pops exactly one entry from the front (invoking it when
non-null) and resets pout to 0. -/
theorem c6_pong_queue_balance :
    (∀ (as : List LiveAction) (l : List (Option Nat)),
      (runLive connClient as).pongs = some l →
      (runLive connClient as).pingsSent = (runLive connClient as).pongsProcessed + l.length) ∧
    (∀ (st : ClientState) (c : Option Nat) (rest : List (Option Nat)),
      st.pongs = some (c :: rest) →
      (recvPong st).pongs = some rest ∧ (recvPong st).pout = 0 ∧
      (recvPong st).pongsProcessed = st.pongsProcessed + 1 ∧
      (recvPong st).calls = st.calls ++ (match c with
        | some f => [CallbackCall.pongCb f]
        | none => [])) ∧
    (∀ (st : ClientState) (cb : Option Nat) (l : List (Option Nat)) (pd : List Chunk),
      st.closed = false → st.pongs = some l → st.pending = some pd →
      (flush st cb).pongs = some (l ++ [cb]) ∧
      (flush st cb).pingsSent = st.pingsSent + 1) ∧
    (∀ (st : ClientState) (l : List (Option Nat)) (pd : List Chunk),
      st.closed = false → st.stream = true → st.pout + 1 ≤ st.maxPingOut →
      st.pongs = some l → st.pending = some pd →
      (heartbeatFire st).pongs = some (l ++ [none]) ∧
      (heartbeatFire st).pingsSent = st.pingsSent + 1) := by
  refine ⟨?_, ?_, ?_, ?_⟩
  · intro as l hl
    exact (pongBalance_runLive as connClient pongBalance_connClient).1 l hl
  · intro st c rest hpg
    unfold recvPong
    simp only [hpg]
    cases c <;> simp
  · intro st cb l pd hcl hpg hpd
    unfold flush
    simp only []
    rw [if_neg (by rw [hcl]; exact Bool.false_ne_true), hpg]
    have hsc := sendCommand_ping { st with pongs := some (l ++ [cb]) } pd hcl hpd
    have hfp := flushPending_frame
      (sendCommand { st with pongs := some (l ++ [cb]) } (Chunk.str pingStr))
    constructor
    · rw [hfp.1]
      simpa using hsc.2.1
    · rw [hfp.2.1]
      simpa using hsc.1
  · intro st l pd hcl hstr hmax hpg hpd
    unfold heartbeatFire
    simp only []
    rw [if_neg (by rw [hcl]; exact Bool.false_ne_true), if_pos hstr, if_neg (by omega)]
    have hsc := sendCommand_ping { st with
        events := (st.events ++ [EmittedEvent.pingtimerEv]) ++
          [EmittedEvent.pingcountEv st.pout],
        pout := st.pout + 1 } pd hcl hpd
    have hp2 : (sendCommand { st with
        events := (st.events ++ [EmittedEvent.pingtimerEv]) ++
          [EmittedEvent.pingcountEv st.pout],
        pout := st.pout + 1 } (Chunk.str pingStr)).pongs = some l :=
      hsc.2.1.trans hpg
    simp only [hp2]
    exact ⟨by simp, by simpa using hsc.1⟩

/-- C6 witness: one flush on the freshly connected client leaves one
unanswered PING and one pong-queue entry; a concrete flush pushes its
callback slot. -/
theorem c6_pong_queue_balance_witness :
    (runLive connClient [LiveAction.flushA (some 5)]).pingsSent =
      (runLive connClient [LiveAction.flushA (some 5)]).pongsProcessed +
        ([some 5] : List (Option Nat)).length ∧
    (flush connClient (some 3)).pongs = some ([] ++ [some 3]) :=
  ⟨c6_pong_queue_balance.1 [LiveAction.flushA (some 5)] [some 5] (by decide),
   (c6_pong_queue_balance.2.2.1 connClient (some 3) [] [] rfl rfl rfl).1⟩

/-- Helper: an UNSUB command line is never the PING_REQUEST string. -/
lemma unsub_str_ne_ping (a b : String) : ("UNSUB " ++ a ++ b) ≠ pingStr := by
  intro h
  have hd := congrArg String.data h
  simp only [String.data_append, List.append_assoc] at hd
  have h2 := congrArg (List.take 2) hd
  rw [take_append_left_of_le ("UNSUB ").data (a.data ++ b.data) 2 (by decide)] at h2
  revert h2
  decide

/-- Helper: a delivery for an unknown sid leaves the state untouched. -/
lemma processMsg_miss (st : ClientState) (sid : Int) (msg : String)
    (hs : lookupSub st sid = none) : processMsg st sid msg = st := by
  unfold processMsg
  rw [hs]

/-- Helper: the delivery on which received reaches max exactly removes the
sub, emits unsubscribe and still invokes the callback. -/
lemma processMsg_hit_exact (st : ClientState) (sid : Int) (sub : Sub)
    (msg : String) (m : Nat) (hs : st.subs = some [(sid, sub)])
    (hm : sub.max = some m) (hr : sub.received + 1 = m)
    (hcb : sub.callbackSet = true) (ht : sub.timeoutActive = false) :
    processMsg st sid msg = { st with
      subs := some [],
      events := st.events ++ [EmittedEvent.unsubscribeEv sid sub.subject],
      calls := st.calls ++ [CallbackCall.msgDelivery sid msg] } := by
  have hlook : lookupSub st sid = some sub := by simp [lookupSub, hs]
  unfold processMsg
  rw [hlook]
  simp [setSub, removeSub, hs, hm, ht, hcb, hr]

/-- Helper: a delivery with received strictly above max issues UNSUB,
removes the sub and does not invoke the callback. -/
lemma processMsg_hit_above (st : ClientState) (sid : Int) (sub : Sub)
    (msg : String) (m : Nat) (pd : List Chunk) (hs : st.subs = some [(sid, sub)])
    (hm : sub.max = some m) (hr : m < sub.received + 1)
    (hne : sub.received + 1 ≠ m) (ht : sub.timeoutActive = false)
    (hcl : st.closed = false) (hconn : st.connected = false)
    (hpd : st.pending = some pd) (hsid : 0 < sid) :
    processMsg st sid msg = { st with
      subs := some [],
      pending := some (pd ++ [Chunk.str ("UNSUB " ++ toString sid ++ crlf)]),
      pSize := st.pSize + chunkLen (Chunk.str ("UNSUB " ++ toString sid ++ crlf)),
      events := st.events ++ [EmittedEvent.unsubscribeEv sid sub.subject] } := by
  have hlook : lookupSub st sid = some sub := by simp [lookupSub, hs]
  have hnp : ¬(Chunk.str ("UNSUB " ++ toString sid ++ crlf) = Chunk.str pingStr) := by
    intro hh
    exact unsub_str_ne_ping (toString sid) crlf (by injection hh)
  have hz : ¬(sid = 0) := by omega
  have hneg : ¬(sid < 0) := by omega
  have hnem : ¬(sub.received + 1 = m) := hne
  unfold processMsg
  rw [hlook]
  simp [setSub, removeSub, unsubscribe, cancelMuxById, jsTruthyNat, sendCommand,
    flushPending, lookupSub, isStrChunk, hs, hm, ht, hcl, hconn, hpd, hnp, hz,
    hneg, hnem, hr]

/-- Helper: a delivery strictly below max just counts and invokes the
callback. -/
lemma processMsg_hit_below (st : ClientState) (sid : Int) (sub : Sub)
    (msg : String) (m : Nat) (hs : st.subs = some [(sid, sub)])
    (hm : sub.max = some m) (hr : sub.received + 1 < m)
    (hcb : sub.callbackSet = true) (ht : sub.timeoutActive = false) :
    processMsg st sid msg = { st with
      subs := some [(sid, { sub with received := sub.received + 1 })],
      calls := st.calls ++ [CallbackCall.msgDelivery sid msg] } := by
  have hlook : lookupSub st sid = some sub := by simp [lookupSub, hs]
  have h1 : ¬(sub.received + 1 = m) := by omega
  have h2 : ¬(m < sub.received + 1) := by omega
  unfold processMsg
  rw [hlook]
  simp [setSub, hs, hm, ht, hcb, h1, h2]

/-- Helper: once the sid is gone from the registry, further deliveries are
no-ops. -/
lemma deliverN_stopped (sid : Int) (msg : String) :
    ∀ (n : Nat) (st : ClientState), st.subs = some [] →
      deliverN sid msg st n = st := by
  intro n
  induction n with
  | zero => intro st _; rfl
  | succ k ih =>
    intro st h
    show deliverN sid msg (processMsg st sid msg) k = st
    rw [processMsg_miss st sid msg (by simp [lookupSub, h])]
    exact ih st h

/-- Helper: a subscription that needs k more deliveries to reach max
invokes its callback exactly k more times, after which it is removed and
the unsubscribe event has fired, regardless of how many extra deliveries
follow. -/
lemma deliverN_counts (sid : Int) (msg : String) (m : Nat) :
    ∀ (k : Nat), 1 ≤ k → ∀ (st : ClientState) (sub : Sub) (j : Nat),
      st.subs = some [(sid, sub)] → sub.max = some m → sub.received + k = m →
      sub.callbackSet = true → sub.timeoutActive = false →
      (deliverN sid msg st (k + j)).subs = some [] ∧
      (deliverN sid msg st (k + j)).events =
        st.events ++ [EmittedEvent.unsubscribeEv sid sub.subject] ∧
      (deliverN sid msg st (k + j)).calls =
        st.calls ++ List.replicate k (CallbackCall.msgDelivery sid msg) := by
  intro k
  induction k with
  | zero => intro h1; exact absurd h1 (by omega)
  | succ k ih =>
    intro _ st sub j hs hm hr hcb ht
    rw [show k + 1 + j = (k + j) + 1 from by omega]
    simp only [deliverN]
    by_cases hk : k = 0
    · subst hk
      rw [processMsg_hit_exact st sid sub msg m hs hm (by omega) hcb ht]
      rw [deliverN_stopped sid msg (0 + j) _ (by simp)]
      simp
    · rw [processMsg_hit_below st sid sub msg m hs hm (by omega) hcb ht]
      have ihx := ih (by omega)
        { st with
          subs := some [(sid, { sub with received := sub.received + 1 })],
          calls := st.calls ++ [CallbackCall.msgDelivery sid msg] }
        { sub with received := sub.received + 1 } j rfl (by simpa using hm)
        (by show sub.received + 1 + k = m; omega) (by simpa using hcb)
        (by simpa using ht)
      refine ⟨ihx.1, ?_, ?_⟩
      · rw [ihx.2.1]
      · rw [ihx.2.2]
        simp [List.replicate_succ, List.append_assoc]

/-- C4: for every subscription with max = m, on the delivery where received
becomes exactly m the subscription is removed from the registry and the
unsubscribe event is emitted while the callback is still invoked for that
m-th message - so over any n >= m deliveries the callback runs exactly m
times; on a delivery where received becomes strictly greater than m, an
UNSUB command is issued, the sub is dropped and the callback is nulled so
it is not invoked. -/
theorem c4_auto_unsubscribe (m : Nat) :
    (∀ (st : ClientState) (sid : Int) (sub : Sub) (msg : String),
      st.subs = some [(sid, sub)] → sub.max = some m → sub.received + 1 = m →
      sub.callbackSet = true → sub.timeoutActive = false →
      processMsg st sid msg = { st with
        subs := some [],
        events := st.events ++ [EmittedEvent.unsubscribeEv sid sub.subject],
        calls := st.calls ++ [CallbackCall.msgDelivery sid msg] }) ∧
    (∀ (st : ClientState) (sid : Int) (sub : Sub) (msg : String) (pd : List Chunk),
      st.subs = some [(sid, sub)] → sub.max = some m → m < sub.received + 1 →
      sub.received + 1 ≠ m → sub.timeoutActive = false → st.closed = false →
      st.connected = false → st.pending = some pd → 0 < sid →
      processMsg st sid msg = { st with
        subs := some [],
        pending := some (pd ++ [Chunk.str ("UNSUB " ++ toString sid ++ crlf)]),
        pSize := st.pSize + chunkLen (Chunk.str ("UNSUB " ++ toString sid ++ crlf)),
        events := st.events ++ [EmittedEvent.unsubscribeEv sid sub.subject] }) ∧
    (∀ (st : ClientState) (sid : Int) (sub : Sub) (msg : String) (n : Nat),
      st.subs = some [(sid, sub)] → sub.max = some m → sub.received = 0 →
      sub.callbackSet = true → sub.timeoutActive = false → 1 ≤ m → m ≤ n →
      (deliverN sid msg st n).calls =
        st.calls ++ List.replicate m (CallbackCall.msgDelivery sid msg) ∧
      (deliverN sid msg st n).subs = some [] ∧
      (deliverN sid msg st n).events =
        st.events ++ [EmittedEvent.unsubscribeEv sid sub.subject]) := by
  refine ⟨?_, ?_, ?_⟩
  · intro st sid sub msg hs hm hr hcb ht
    exact processMsg_hit_exact st sid sub msg m hs hm hr hcb ht
  · intro st sid sub msg pd hs hm hr hne ht hcl hconn hpd hsid
    exact processMsg_hit_above st sid sub msg m pd hs hm hr hne ht hcl hconn hpd hsid
  · intro st sid sub msg n hs hm hr0 hcb ht h1m hmn
    have hd := deliverN_counts sid msg m m h1m st sub (n - m) hs hm (by omega) hcb ht
    rw [show m + (n - m) = n from by omega] at hd
    exact ⟨hd.2.2, hd.1, hd.2.1⟩

/-- Helper: sendCommand leaves ssid alone. -/
lemma sendCommand_ssid (st : ClientState) (c : Chunk) :
    (sendCommand st c).ssid = st.ssid :=
  (sendCommand_frame st c).2.2.2.2.2.1

/-- Helper: sendCommand leaves closed alone. -/
lemma sendCommand_closed (st : ClientState) (c : Chunk) :
    (sendCommand st c).closed = st.closed :=
  (sendCommand_frame st c).2.2.1

/-- Helper: sendCommand leaves respmux alone. -/
lemma sendCommand_respmux (st : ClientState) (c : Chunk) :
    (sendCommand st c).respmux = st.respmux :=
  (sendCommand_frame st c).2.2.2.2.2.2.2.1

/-- Helper: on a disconnected open client with a live queue, sendCommand
just appends the chunk. -/
lemma sendCommand_queue (st : ClientState) (c : Chunk) (pd : List Chunk)
    (hcl : st.closed = false) (hpd : st.pending = some pd)
    (hconn : st.connected = false) :
    sendCommand st c = { st with
      pending := some (pd ++ [c]),
      pSize := st.pSize + chunkLen c,
      pBufs := st.pBufs || !isStrChunk c,
      pingsSent := st.pingsSent + (if c = Chunk.str pingStr then 1 else 0) } := by
  unfold sendCommand
  rw [if_neg (by simp [hcl, hpd])]
  simp only []
  rw [if_neg (by simp [hconn])]
  simp [hpd]

/-- Helper: flushPending is a no-op while disconnected. -/
lemma flushPending_not_connected (st : ClientState) (h : st.connected = false) :
    flushPending st = st := by
  unfold flushPending
  rw [if_pos (Or.inl h)]

/-- Helper: subscribe on an open client returns ssid + 1 and bumps the
counter, leaving closed and respmux alone. -/
lemma subscribe_step (st : ClientState) (subject : String) (hcl : st.closed = false) :
    ∃ st2, subscribe st subject none none true = some (st2, st.ssid + 1) ∧
      st2.ssid = st.ssid + 1 ∧ st2.closed = false ∧ st2.respmux = st.respmux := by
  unfold subscribe
  rw [if_neg (by simp [hcl])]
  simp only []
  rw [if_neg (by decide : ¬(jsTruthyNat (none : Option Nat) = true))]
  refine ⟨_, rfl, ?_, ?_, ?_⟩
  · simp [sendCommand_ssid, setSub]
  · simp [sendCommand_closed, setSub, hcl]
  · simp [sendCommand_respmux, setSub]

/-- Helper: iterated subscribes return the consecutive sids
ssid + 1, ssid + 2, ... -/
lemma subscribeMany_sids (subject : String) :
    ∀ (n : Nat) (st : ClientState), st.closed = false →
      ∃ st2, subscribeMany subject st n =
          some (st2, (List.range n).map (fun k : Nat => st.ssid + 1 + (k : Int))) ∧
        st2.closed = false := by
  intro n
  induction n with
  | zero =>
    intro st hcl
    exact ⟨st, rfl, hcl⟩
  | succ n ih =>
    intro st hcl
    obtain ⟨st1, hsub, hssid, hcl1, _⟩ := subscribe_step st subject hcl
    obtain ⟨st2, hmany, hcl2⟩ := ih st1 hcl1
    refine ⟨st2, ?_, hcl2⟩
    show (match subscribe st subject none none true with
      | none => none
      | some (st1, sid) =>
        match subscribeMany subject st1 n with
        | none => none
        | some (st2, sids) => some (st2, sid :: sids)) = _
    rw [hsub]
    simp only []
    rw [hmany]
    simp only []
    congr 1
    refine congrArg _ ?_
    rw [List.range_succ_eq_map]
    simp only [List.map_cons, List.map_map]
    congr 1
    · push_cast
      omega
    · apply List.map_congr_left
      intro k _
      simp only [Function.comp_apply, hssid]
      push_cast
      omega

/-- Helper: publish with a real subject, a reply and no callback succeeds
and only touches the outbound queue. -/
lemma publish_step (st : ClientState) (s msg r : String) (hs : s ≠ "")
    (hcl : st.closed = false) :
    ∃ st2, publish st (some s) (some msg) (some r) none = some st2 ∧
      st2.closed = false ∧ st2.respmux = st.respmux ∧ st2.ssid = st.ssid := by
  unfold publish
  have hsf : subjFalsy (some s) = false := by simp [subjFalsy, hs]
  rw [if_neg (by simp [hsf])]
  simp only [hsf, Bool.false_eq_true, if_false]
  rw [if_neg (by rw [sendCommand_closed, hcl]; exact Bool.false_ne_true)]
  exact ⟨_, rfl, by rw [sendCommand_closed, hcl], sendCommand_respmux _ _,
    sendCommand_ssid _ _⟩

/-- Helper: with an existing respmux, initMuxRequestDetails hands out the
current nextID as the mux id and decrements the stored counter. -/
lemma initMux_some (st : ClientState) (rm : RespMux) (hrm : st.respmux = some rm) :
    ∃ conf st1 rm1, initMuxRequestDetails st true none = some (st1, conf) ∧
      conf.id = rm.nextID ∧ st1.closed = st.closed ∧
      st1.respmux = some rm1 ∧ rm1.nextID = rm.nextID - 1 := by
  unfold initMuxRequestDetails createResponseMux
  simp only [hrm, nuidNext]
  exact ⟨_, _, _, rfl, rfl, rfl, rfl, rfl⟩

/-- Helper: a request on a client with an existing respmux returns the
current nextID and decrements it. -/
lemma request_step (st : ClientState) (subject msg : String) (rm : RespMux)
    (hsub : subject ≠ "") (hcl : st.closed = false)
    (hrm : st.respmux = some rm) :
    ∃ st2 rm2, request st subject msg none false true = some (st2, rm.nextID) ∧
      st2.closed = false ∧ st2.respmux = some rm2 ∧
      rm2.nextID = rm.nextID - 1 := by
  obtain ⟨conf, st1, rm1, hinit, hid, hcl1, hresp1, hnid⟩ := initMux_some st rm hrm
  unfold request
  rw [hinit]
  simp only []
  obtain ⟨st2, hpub, hcl2, hresp2, _⟩ :=
    publish_step st1 subject msg conf.inbox hsub (hcl1.trans hcl)
  rw [hpub]
  simp only [Bool.false_eq_true, if_false]
  exact ⟨st2, rm1, by rw [hid], hcl2, hresp2.trans hresp1, hnid⟩

/-- Helper: iterated requests on a client whose respmux exists return
the consecutive mux ids nextID, nextID - 1, ... -/
lemma requestMany_ids (subject msg : String) (hsub : subject ≠ "") :
    ∀ (n : Nat) (st : ClientState) (rm : RespMux), st.closed = false →
      st.respmux = some rm →
      ∃ st2, requestMany subject msg st n =
        some (st2, (List.range n).map (fun k : Nat => rm.nextID - (k : Int))) := by
  intro n
  induction n with
  | zero =>
    intro st rm _ _
    exact ⟨st, rfl⟩
  | succ n ih =>
    intro st rm hcl hrm
    obtain ⟨st1, rm1, hreq, hcl1, hrm1, hnid⟩ :=
      request_step st subject msg rm hsub hcl hrm
    obtain ⟨st2, hmany⟩ := ih st1 rm1 hcl1 hrm1
    refine ⟨st2, ?_⟩
    show (match request st subject msg none false true with
      | none => none
      | some (st1, id) =>
        match requestMany subject msg st1 n with
        | none => none
        | some (st2, ids) => some (st2, id :: ids)) = _
    rw [hreq]
    simp only []
    rw [hmany]
    simp only []
    congr 1
    refine congrArg _ ?_
    rw [List.range_succ_eq_map]
    simp only [List.map_cons, List.map_map]
    congr 1
    · push_cast
      omega
    · apply List.map_congr_left
      intro k _
      simp only [Function.comp_apply, hnid]
      push_cast
      omega

/-- Helper: the first request on a fresh client creates the respmux and
returns mux id -1 (computed concretely). -/
lemma request_client0_first :
    request client0 "svc" "msg" none false true = some (clientR, -1) := rfl

/-- Helper: the state after the first request is open and its respmux
counter stands at -2. -/
lemma clientR_facts :
    clientR.closed = false ∧ clientR.respmux = some rmR ∧ rmR.nextID = -2 :=
  ⟨rfl, rfl, by decide⟩

/-- C1 (amended): on a fresh client the sids handed out by successive
subscribes are exactly 2, 3, ..., n + 1 - ssid is initialised to 1 and
incremented before use, so the sid sequence is strictly increasing over
the positive integers but starts at 2, not 1; the mux ids handed out by
successive requests are exactly -1, -2, ..., -n, strictly decreasing over
the negative integers starting at -1; sid 0 is never assigned and the two
id spaces never collide. -/
theorem c1_sid_and_mux_id_spaces (n : Nat) :
    (∃ st2, subscribeMany "foo" client0 n =
        some (st2, (List.range n).map (fun k : Nat => (2 : Int) + (k : Int)))) ∧
    (∃ st2, requestMany "svc" "msg" client0 n =
        some (st2, (List.range n).map (fun k : Nat => -(1 : Int) - (k : Int)))) ∧
    (∀ i : Nat, (0 : Int) < 2 + (i : Int) ∧ -(1 : Int) - (i : Int) < 0 ∧
      2 + (i : Int) ≠ 0 ∧ -(1 : Int) - (i : Int) ≠ 0) ∧
    (∀ i j : Nat, i < j →
      (2 : Int) + (i : Int) < 2 + (j : Int) ∧
      -(1 : Int) - (j : Int) < -(1 : Int) - (i : Int)) ∧
    (∀ i j : Nat, (2 : Int) + (i : Int) ≠ -(1 : Int) - (j : Int)) := by
  refine ⟨?_, ?_, ?_, ?_, ?_⟩
  · obtain ⟨st2, hmany, _⟩ := subscribeMany_sids "foo" n client0 rfl
    exact ⟨st2, hmany⟩
  · cases n with
    | zero => exact ⟨client0, rfl⟩
    | succ n =>
      obtain ⟨st2, hmany⟩ := requestMany_ids "svc" "msg" (by decide) n clientR
        rmR clientR_facts.1 clientR_facts.2.1
      refine ⟨st2, ?_⟩
      show (match request client0 "svc" "msg" none false true with
        | none => none
        | some (st1, id) =>
          match requestMany "svc" "msg" st1 n with
          | none => none
          | some (st2, ids) => some (st2, id :: ids)) = _
      rw [request_client0_first]
      simp only []
      rw [hmany]
      simp only []
      congr 1
      refine congrArg _ ?_
      rw [List.range_succ_eq_map]
      simp only [List.map_cons, List.map_map]
      congr 1
      all_goals
        first
        | omega
        | (push_cast; omega)
        | (apply List.map_congr_left; intro k _;
           simp only [Function.comp_apply, clientR_facts.2.2];
           push_cast; omega)
  · intro i
    refine ⟨by omega, by omega, by omega, by omega⟩
  · intro i j hij
    constructor <;> omega
  · intro i j
    omega

/-- C1 counterexample: the first sid a fresh client assigns is 2, not 1
as the claim states - initState sets ssid = 1 and subscribe increments it
before handing it out. -/
theorem c1_first_sid_not_one :
    (subscribeMany "foo" client0 1).map (fun p => p.2) = some [(2 : Int)] ∧
    (2 : Int) ≠ 1 :=
  ⟨rfl, by decide⟩

/-- Helper: flush on an open disconnected client pushes the callback slot
onto the pong queue and queues a PING without writing anything. -/
lemma flush_not_connected (st : ClientState) (tag : Nat) (pd : List Chunk)
    (q : List (Option Nat)) (hcl : st.closed = false)
    (hconn : st.connected = false) (hpd : st.pending = some pd)
    (hpg : st.pongs = some q) :
    flush st (some tag) = { st with
      pongs := some (q ++ [some tag]),
      pending := some (pd ++ [Chunk.str pingStr]),
      pSize := st.pSize + chunkLen (Chunk.str pingStr),
      pingsSent := st.pingsSent + 1 } := by
  unfold flush
  rw [if_neg (by simp [hcl])]
  simp only [hpg]
  rw [sendCommand_queue { st with pongs := some (q ++ [some tag]) }
    (Chunk.str pingStr) pd hcl hpd hconn]
  rw [flushPending_not_connected _ (by exact hconn)]
  simp [isStrChunk]

/-- C9: publish with a falsy subject but a callback supplied delivers a
BAD_SUBJECT error to the callback yet does not return early: the PUB
command is still built and enqueued (with the literal subject text
"undefined" when the subject argument is undefined), followed by the
flush PING. -/
theorem c9_publish_bad_subject_still_enqueues (st : ClientState)
    (subject : Option String) (msg : String) (tag : Nat) (pd : List Chunk)
    (q : List (Option Nat)) (hsf : subjFalsy subject = true)
    (hcl : st.closed = false) (hconn : st.connected = false)
    (hpd : st.pending = some pd) (hpg : st.pongs = some q) :
    ∃ st2, publish st subject (some msg) none (some tag) = some st2 ∧
      st2.calls = st.calls ++ [CallbackCall.errCall BAD_SUBJECT] ∧
      st2.pending = some (pd ++
        [Chunk.str ("PUB " ++ jsSubjStr subject ++ " " ++
           toString msg.utf8ByteSize ++ crlf ++ msg ++ crlf),
         Chunk.str pingStr]) ∧
      jsSubjStr none = "undefined" := by
  unfold publish
  simp only [Option.getD_some]
  rw [if_neg (by simp), if_pos hsf]
  rw [sendCommand_queue
    { st with calls := st.calls ++ [CallbackCall.errCall BAD_SUBJECT] }
    (Chunk.str ("PUB " ++ jsSubjStr subject ++ " " ++
      toString msg.utf8ByteSize ++ crlf ++ msg ++ crlf)) pd hcl hpd hconn]
  rw [flush_not_connected
    { st with
        calls := st.calls ++ [CallbackCall.errCall BAD_SUBJECT],
        pending := some (pd ++ [Chunk.str ("PUB " ++ jsSubjStr subject ++ " " ++
          toString msg.utf8ByteSize ++ crlf ++ msg ++ crlf)]),
        pSize := st.pSize + chunkLen (Chunk.str ("PUB " ++ jsSubjStr subject
          ++ " " ++ toString msg.utf8ByteSize ++ crlf ++ msg ++ crlf)),
        pBufs := st.pBufs || !isStrChunk (Chunk.str ("PUB " ++
          jsSubjStr subject ++ " " ++ toString msg.utf8ByteSize ++ crlf ++
          msg ++ crlf)),
        pingsSent := st.pingsSent + (if Chunk.str ("PUB " ++ jsSubjStr subject
          ++ " " ++ toString msg.utf8ByteSize ++ crlf ++ msg ++ crlf) =
          Chunk.str pingStr then 1 else 0) }
    tag _ q hcl hconn rfl hpg]
  refine ⟨_, rfl, by simp, ?_, rfl⟩
  simp [List.append_assoc]

/-- C9 witness: on a fresh client, publishing with an undefined subject
and callback tag 7 enqueues `PUB undefined 2\r\nhi\r\n` and a PING while
the callback receives BAD_SUBJECT. -/
theorem c9_publish_bad_subject_still_enqueues_witness :
    ∃ st2, publish client0 none (some "hi") none (some 7) = some st2 ∧
      st2.calls = client0.calls ++ [CallbackCall.errCall BAD_SUBJECT] ∧
      st2.pending = some ([] ++
        [Chunk.str ("PUB " ++ jsSubjStr none ++ " " ++
           toString ("hi" : String).utf8ByteSize ++ crlf ++ "hi" ++ crlf),
         Chunk.str pingStr]) ∧
      jsSubjStr none = "undefined" :=
  c9_publish_bad_subject_still_enqueues client0 none "hi" 7 [] [] rfl rfl rfl
    rfl rfl

/-- C4 witness: a client holding one subscription with max = 3 under sid 2
receives 5 messages; the callback runs exactly 3 times, the subscription
is gone and the unsubscribe event fired. -/
theorem c4_auto_unsubscribe_witness :
    (deliverN 2 "hello" clientW 5).calls =
      clientW.calls ++ List.replicate 3 (CallbackCall.msgDelivery 2 "hello") ∧
    (deliverN 2 "hello" clientW 5).subs = some [] ∧
    (deliverN 2 "hello" clientW 5).events =
      clientW.events ++ [EmittedEvent.unsubscribeEv 2 subW.subject] :=
  (c4_auto_unsubscribe 3).2.2 clientW 2 subW "hello" 5 rfl rfl rfl rfl rfl
    (by decide) (by decide)

end NatsModel
